import Mathlib

/-!
# Boost.Contract: the subcontracting composer, the checker and the failure handlers

A shallow embedding of `boost/contract/aux_/check/subcontracted_pre_post_inv.hpp`
(the class `subcontracted_pre_post_inv` with its nested functor `check_base`), of
`boost/contract/aux_/function.hpp` (the single-level checker `aux::function`) and of
`boost/contract/exception.hpp` (`assertion_failure`, the failure handlers and their
setters), with the examples access.cpp and throw_on_failure.cpp that the properties
refer to.  Machine integers are natural numbers, reduced modulo `2 ^ 32` where a value
is stored in an `unsigned`.

C++ control flow is made explicit: a piece of code is an `action`, a function from the
program state to an `outcome` (normal return, or an exception in flight) and the state
it leaves behind.  State changes made before a `throw` persist, as in C++.
`std::terminate` ends the process; a check cannot observe it, so it is not an `outcome`,
and it appears only where a whole call or a failure handler ends (`ending`,
`handler_ending`).
-/

namespace boost.contract

/-- Modelled from the spec: `boost::contract::virtual_body` is declared in
`virtual_body.hpp`, which is not among the sources.  The enumerators are the ones the
sources name: `user_call`, `check_inv_only`, `check_pre_only`, `check_post_only`
(function.hpp) and `check_entry_inv_only`, `check_exit_inv_only`
(subcontracted_pre_post_inv.hpp). -/
inductive virtual_body where
  | user_call
  | check_inv_only
  | check_pre_only
  | check_post_only
  | check_entry_inv_only
  | check_exit_inv_only
  deriving DecidableEq, Repr

namespace aux

/-- The object carried by a C++ `throw`: either `boost::contract::aux::no_error`, the
signal a callee uses to report that its check passed, or any other exception `e`
(an `assertion_failure`, a user-defined exception, ...), which reports a failure. -/
inductive thrown (ε : Type) where
  | no_error : thrown ε
  | failure (e : ε) : thrown ε
  deriving DecidableEq, Repr

/-- How a piece of code ends: it returns, or it leaves by an exception. -/
inductive outcome (ε : Type) where
  | returned : outcome ε
  | threw (t : thrown ε) : outcome ε
  deriving DecidableEq, Repr

/-- A piece of code run for its effect (a `void` function call). -/
abbrev action (σ ε : Type) := σ → outcome ε × σ

/-- An empty function body. -/
def skip {σ ε : Type} : action σ ε := fun s => (outcome.returned, s)

/-- Statement sequencing `a; b`: `b` runs only if `a` returned. -/
def seq {σ ε : Type} (a b : action σ ε) : action σ ε := fun s =>
  match a s with
  | (outcome.returned, s1) => b s1
  | (outcome.threw t, s1) => (outcome.threw t, s1)

/-- The statement `try { body } catch(no_error const&) { }` with an empty handler. -/
def try_catch_no_error {σ ε : Type} (body : action σ ε) : action σ ε := fun s =>
  match body s with
  | (outcome.threw thrown.no_error, s1) => (outcome.returned, s1)
  | r => r

/-- The algorithm `boost::mpl::for_each<Sequence>(f)`: `f` is applied to every element
in sequence order; an exception leaving `f` ends the iteration. -/
def for_each {β σ ε : Type} : List β → (β → action σ ε) → action σ ε
  | [], _ => skip
  | b :: bs, f => seq (f b) (for_each bs f)

namespace check

/-- One element of `base_ptrs`.  `member_function_address` is
`Intro::member_function_address<Base, ...>()`: the base's virtual function taking the
argument and the `virtual_body` action.  It is `none` exactly when
`Intro::has_member_function<Base, ...>::value` is false, that is when the base declares
no compatible contract function. -/
structure base (α σ ε : Type) where
  member_function_address : Option (α → virtual_body → action σ ε)

/-- The compile-time constant `Intro::has_member_function<Base, ...>::value`. -/
def base.has_member_function {α σ ε : Type} (b : base α σ ε) : Bool :=
  b.member_function_address.isSome

/-- The class `subcontracted_pre_post_inv<Class, Intro, Func, Arg0>`: the list of base
pointers, the captured argument `arg0_`, and the four members it inherits from
`pre_post_inv<Class>` (declared in `aux_/check/pre_post_inv.hpp`, which is not among
the sources; they are taken as given):
`check_pre(throw_on_failure)`, `check_post()`, `check_entry_inv()`, `check_exit_inv()`,
the override's own checks. -/
structure subcontracted_pre_post_inv (α σ ε : Type) where
  base_ptrs : List (base α σ ε)
  arg0_ : α
  check_pre : Bool → action σ ε
  check_post : action σ ε
  check_entry_inv : action σ ε
  check_exit_inv : action σ ε

namespace subcontracted_pre_post_inv

/-- The overload `check_base::call_base_function(boost::mpl::false_ const&)`: empty. -/
def call_base_function_false {σ ε : Type} : action σ ε := skip

/-- The overload `check_base::call_base_function(boost::mpl::true_ const&)`:
the base's virtual function is called with `arg0_` and `virt_` inside a `try`;
`catch(no_error const&)` re-throws only when `virt_ == check_pre_only`;
`catch(...)` has an `if(virt_ == check_pre_only)` with an empty body and no `else`,
so every other exception is absorbed whatever `virt_` is.  The two
`BOOST_CONTRACT_AUX_DEBUG` assertions (the function address and the object pointer are
not null) hold by construction. -/
def call_base_function_true {α σ ε : Type} (outer_ : subcontracted_pre_post_inv α σ ε)
    (virt_ : virtual_body) (base_virtual_func : α → virtual_body → action σ ε) :
    action σ ε := fun s =>
  match base_virtual_func outer_.arg0_ virt_ s with
  | (outcome.returned, s1) => (outcome.returned, s1)
  | (outcome.threw thrown.no_error, s1) =>
      if virt_ = virtual_body.check_pre_only then (outcome.threw thrown.no_error, s1)
      else (outcome.returned, s1)
  | (outcome.threw (thrown.failure _), s1) =>
      if virt_ = virtual_body.check_pre_only then (outcome.returned, s1)
      else (outcome.returned, s1)

/-- The functor `check_base(outer, virt)` applied to one base pointer
(`check_base::operator()`): dispatch on `has_member_function`. -/
def check_base {α σ ε : Type} (outer_ : subcontracted_pre_post_inv α σ ε)
    (virt_ : virtual_body) (b : base α σ ε) : action σ ε :=
  match b.member_function_address with
  | none => call_base_function_false
  | some base_virtual_func => call_base_function_true outer_ virt_ base_virtual_func

/-- The member `check_subcontracted_pre(throw_on_failure)`. -/
def check_subcontracted_pre {α σ ε : Type} (self : subcontracted_pre_post_inv α σ ε)
    (throw_on_failure : Bool) : action σ ε :=
  try_catch_no_error
    (seq (for_each self.base_ptrs (check_base self virtual_body.check_pre_only))
      (self.check_pre throw_on_failure))

/-- The member `check_subcontracted_post()`. -/
def check_subcontracted_post {α σ ε : Type} (self : subcontracted_pre_post_inv α σ ε) :
    action σ ε :=
  seq (for_each self.base_ptrs (check_base self virtual_body.check_post_only))
    self.check_post

/-- The member `check_subcontracted_entry_inv()`. -/
def check_subcontracted_entry_inv {α σ ε : Type}
    (self : subcontracted_pre_post_inv α σ ε) : action σ ε :=
  seq (for_each self.base_ptrs (check_base self virtual_body.check_entry_inv_only))
    self.check_entry_inv

/-- The member `check_subcontracted_exit_inv()`. -/
def check_subcontracted_exit_inv {α σ ε : Type}
    (self : subcontracted_pre_post_inv α σ ε) : action σ ε :=
  seq (for_each self.base_ptrs (check_base self virtual_body.check_exit_inv_only))
    self.check_exit_inv

end subcontracted_pre_post_inv

end check

/-- The statement `if(f) f();` on an optional functor (`pre_`, `post_`): nothing is
called when no functor was supplied. -/
def call_if_set {σ ε : Type} (f : Option (action σ ε)) : action σ ε :=
  match f with
  | none => skip
  | some g => g

/-- The class `aux::function<FuncTraits, FuncPtr, Class, Arg0>` of function.hpp.
`base_func_action virt` is the functor `base_func_.action(virt)` that `for_each` applies
to each base pointer (`base_function` is declared in a header that is not among the
sources; it is taken as given).  `invariant` is `Class::invariant()`, present exactly
when `has_invariant<Class>::value`; `pre_` and `post_` are the functors supplied by the
user, if any. -/
structure function (β σ ε : Type) where
  base_ptrs : List β
  base_func_action : virtual_body → β → action σ ε
  invariant : Option (action σ ε)
  pre_ : Option (action σ ε)
  post_ : Option (action σ ε)
  virt_ : virtual_body

namespace function

/-- The member `function::check_inv()`, with its two overloads on `has_invariant`
(the `false_` overload is empty, the `true_` overload calls the invariant). -/
def check_inv {β σ ε : Type} (self : function β σ ε) : action σ ε :=
  seq (for_each self.base_ptrs (self.base_func_action virtual_body.check_inv_only))
    (match self.invariant with
     | none => skip
     | some inv => inv)

/-- The member `function::check_pre()`. -/
def check_pre {β σ ε : Type} (self : function β σ ε) : action σ ε :=
  seq (for_each self.base_ptrs (self.base_func_action virtual_body.check_pre_only))
    (call_if_set self.pre_)

/-- The member `function::check_post()`. -/
def check_post {β σ ε : Type} (self : function β σ ε) : action σ ε :=
  seq (for_each self.base_ptrs (self.base_func_action virtual_body.check_post_only))
    (call_if_set self.post_)

/-- The statement `throw boost::contract::aux::no_error();`. -/
def throw_no_error {σ ε : Type} : action σ ε :=
  fun s => (outcome.threw thrown.no_error, s)

/-- The member `function::init()`, run by both constructors.  `assert(obj_)` holds for
a call on an object and `base_func_.derived_function(this)` only records a pointer;
neither evaluates a check. -/
def init {β σ ε : Type} (self : function β σ ε) : action σ ε :=
  if self.virt_ = virtual_body.user_call then self.check_inv
  else if self.virt_ = virtual_body.check_inv_only then seq self.check_inv throw_no_error
  else skip

/-- The member `function::pre_available()`. -/
def pre_available {β σ ε : Type} (self : function β σ ε) : action σ ε :=
  if self.virt_ = virtual_body.user_call then self.check_pre
  else if self.virt_ = virtual_body.check_pre_only then seq self.check_pre throw_no_error
  else skip

/-- The member `function::post_available()`. -/
def post_available {β σ ε : Type} (self : function β σ ε) : action σ ε :=
  if self.virt_ = virtual_body.check_post_only then seq self.check_post throw_no_error
  else skip

/-- The destructor `function::~function()`. -/
def destructor {β σ ε : Type} (self : function β σ ε) : action σ ε :=
  if self.virt_ = virtual_body.user_call then seq self.check_inv self.check_post
  else skip

end function

/-- How the execution of a contracted function ends: it is left normally or by an
exception, or the process is ended by `std::terminate`. -/
inductive ending (ε : Type) where
  | finished (r : outcome ε) : ending ε
  | terminated : ending ε
  deriving DecidableEq, Repr

/-- Modelled from the spec: the caller of the members of `function` is
`boost::contract::type`, declared in type.hpp, which is not among the sources.  The
lifecycle is the one of the spec's checking guard, "created at the start of a monitored
region, transitions through entry-checking, body-running, exit-checking, disposed;
destroyed either normally (body completed) or during stack unwinding (body raised)":
the guard is constructed (`init()`), the precondition and then the postcondition are
supplied (`pre_available()`, `post_available()`, in the order of
`.precondition(...).postcondition(...)` in access.cpp), the body runs, and the guard is
destroyed when its scope is left, normally or by an exception.  C++ rules fill in the
rest: an exception leaving the constructor leaves no object to destroy, and an exception
leaving the destructor while another one is unwinding the stack ends the process. -/
def contracted_call {β σ ε : Type} (self : function β σ ε) (body : action σ ε) :
    σ → ending ε × σ := fun s =>
  match self.init s with
  | (outcome.threw t, s1) => (ending.finished (outcome.threw t), s1)
  | (outcome.returned, s1) =>
    match seq self.pre_available (seq self.post_available body) s1 with
    | (outcome.returned, s2) =>
        (ending.finished (self.destructor s2).1, (self.destructor s2).2)
    | (outcome.threw t, s2) =>
      match self.destructor s2 with
      | (outcome.returned, s3) => (ending.finished (outcome.threw t), s3)
      | (outcome.threw _, s3) => (ending.terminated, s3)

/-! ## Observing which checks are evaluated

The composer is run on checks that leave a mark in the state whenever they are
evaluated: the state is the list of participants checked so far.  A participant is
described by the verdict its check gives on an input; the input `x` stands for
everything a check reads, the receiver's state and the argument of the call. -/

/-- A participant of a subcontracted call: a base, by name, or the override itself. -/
inductive participant (ι : Type) where
  | base (name : ι) : participant ι
  | override : participant ι
  deriving DecidableEq, Repr

/-- A check that records `who` is being evaluated and then ends with verdict `v`. -/
def logged {κ ε : Type} (who : κ) (v : outcome ε) : action (List κ) ε :=
  fun log => (v, log ++ [who])

/-- A base of the receiver's class: its name, and, if it declares a compatible contract
function, how that function ends for each argument and `virtual_body` action. -/
structure declared_base (ι α ε : Type) where
  name : ι
  contract_function : Option (α → virtual_body → outcome ε)

/-- The override's own four checks: how each ends for each argument. -/
structure declared_override (α ε : Type) where
  check_pre : Bool → α → outcome ε
  check_post : α → outcome ε
  check_entry_inv : α → outcome ε
  check_exit_inv : α → outcome ε

/-- The base pointer of a declared base, its contract function recording each call. -/
def declared_base.observed {ι α ε : Type} (b : declared_base ι α ε) :
    check.base α (List (participant ι)) ε :=
  ⟨b.contract_function.map
    (fun f x virt => logged (participant.base b.name) (f x virt))⟩

/-- The base's precondition check accepts `x`: the base declares the contract function
and, called in `check_pre_only` mode, it signals `no_error`. -/
def declared_base.accepts {ι α ε : Type} (b : declared_base ι α ε) (x : α) : Prop :=
  b.contract_function.map (fun f => f x virtual_body.check_pre_only) =
    some (outcome.threw thrown.no_error)

instance declared_base.decidable_accepts {ι α ε : Type} [DecidableEq ε]
    (b : declared_base ι α ε) (x : α) : Decidable (b.accepts x) :=
  inferInstanceAs (Decidable (b.contract_function.map
    (fun f => f x virtual_body.check_pre_only) = some (outcome.threw thrown.no_error)))

/-- The check raises a failure: it leaves by an exception other than `no_error`. -/
def outcome.fails {ε : Type} (r : outcome ε) : Prop :=
  ∃ e, r = outcome.threw (thrown.failure e)

/-- The composer object for a call with argument `x` on a class with bases `bs` and
own checks `o`, every check recording its evaluation. -/
def observed {ι α ε : Type} (bs : List (declared_base ι α ε))
    (o : declared_override α ε) (x : α) :
    check.subcontracted_pre_post_inv α (List (participant ι)) ε :=
  ⟨bs.map declared_base.observed, x,
    fun throw_on_failure => logged participant.override (o.check_pre throw_on_failure x),
    logged participant.override (o.check_post x),
    logged participant.override (o.check_entry_inv x),
    logged participant.override (o.check_exit_inv x)⟩

/-- The bases whose check is evaluated by a pass that visits every base: those that
declare the contract function, in list order. -/
def evaluated_bases {ι α ε : Type} (bs : List (declared_base ι α ε)) :
    List (participant ι) :=
  (bs.filter (fun b => b.contract_function.isSome)).map
    (fun b => participant.base b.name)

/-- What a contracted function evaluates: the action of a base for one category of
check, the class's own invariant, precondition or postcondition, or the body. -/
inductive check_event (ι : Type) where
  | base (name : ι) (virt : virtual_body) : check_event ι
  | invariant : check_event ι
  | precondition : check_event ι
  | postcondition : check_event ι
  | body : check_event ι
  deriving DecidableEq, Repr

/-- The `function` object of a class with the bases `names` that declares an invariant,
a precondition and a postcondition ending as `inv`, `pre` and `post`; every check
records its evaluation, and the action of a base returns once it has run. -/
def function.observed {ι ε : Type} (names : List ι) (virt : virtual_body)
    (inv pre post : outcome ε) : function ι (List (check_event ι)) ε :=
  ⟨names, fun v i => logged (check_event.base i v) outcome.returned,
    some (logged check_event.invariant inv),
    some (logged check_event.precondition pre),
    some (logged check_event.postcondition post), virt⟩

/-- The events of one category of check on a class with the bases `names`: the action
of each base, in list order, and then the class's own check. -/
def category_events {ι : Type} (names : List ι) (virt : virtual_body)
    (own : check_event ι) : List (check_event ι) :=
  names.map (fun i => check_event.base i virt) ++ [own]

/-! ## Concrete classes used as test inputs -/

/-- How a check that raises the failure `r`, if any, ends when it is evaluated on its
own. -/
def raise {ε : Type} (r : Option ε) : outcome ε :=
  match r with
  | none => outcome.returned
  | some e => outcome.threw (thrown.failure e)

/-- The contract function of a base that declares a precondition and a postcondition,
each given by the failure it raises on an argument, if any, and whose invariant holds.
Called for one category of check it evaluates that check and then throws `no_error`
(`function::init`, `pre_available`, `post_available`); a failure raised by the check
leaves the function instead.  Called with `user_call` it runs to the end. -/
def contract_function {α ε : Type} (pre post : α → Option ε) (x : α) :
    virtual_body → outcome ε
  | virtual_body.user_call => outcome.returned
  | virtual_body.check_pre_only =>
      match pre x with
      | none => outcome.threw thrown.no_error
      | some e => outcome.threw (thrown.failure e)
  | virtual_body.check_post_only =>
      match post x with
      | none => outcome.threw thrown.no_error
      | some e => outcome.threw (thrown.failure e)
  | virtual_body.check_inv_only => outcome.threw thrown.no_error
  | virtual_body.check_entry_inv_only => outcome.threw thrown.no_error
  | virtual_body.check_exit_inv_only => outcome.threw thrown.no_error

/-- The own checks of an override that declares a precondition and a postcondition and
whose invariant holds. -/
def own_checks {α ε : Type} (pre post : α → Option ε) : declared_override α ε :=
  ⟨fun _ x => raise (pre x), fun x => raise (post x),
    fun _ => outcome.returned, fun _ => outcome.returned⟩

/-- The assertion `cond`, raising the failure `e` when it is false. -/
def assertion {ε : Type} (cond : Bool) (e : ε) : Option ε :=
  if cond then none else some e

/-- Base `B` of the scenarios: precondition `x < 10`, postcondition `x < 10`. -/
def scenario_base_B : declared_base String Nat String :=
  ⟨"B", some (contract_function (fun x => assertion (decide (x < 10)) "B::pre")
    (fun x => assertion (decide (x < 10)) "B::post"))⟩

/-- Base `A` of the scenarios: precondition `x < 3`, postcondition `x < 20`. -/
def scenario_base_A : declared_base String Nat String :=
  ⟨"A", some (contract_function (fun x => assertion (decide (x < 3)) "A::pre")
    (fun x => assertion (decide (x < 20)) "A::post"))⟩

/-- Base `N` of the scenarios: it declares no compatible contract function. -/
def scenario_base_N : declared_base String Nat String := ⟨"N", none⟩

/-- Override `O` of the scenarios: precondition `x < 5`, stricter than the one of `B`;
postcondition `x < 15`. -/
def scenario_override_O : declared_override Nat String :=
  own_checks (fun x => assertion (decide (x < 5)) "O::pre")
    (fun x => assertion (decide (x < 15)) "O::post")

end aux

/-! ## exception.hpp: assertion failures and failure handlers -/

/-- The exception class `boost::contract::assertion_failure`: the three values given
at construction and the text `what_` computed from them by `init()`.  The line number
is an `unsigned long`; it is only printed, in decimal, so its width plays no part. -/
structure assertion_failure where
  file_ : String
  line_ : Nat
  code_ : String
  what_ : String
  deriving DecidableEq, Repr

namespace assertion_failure

/-- The member `assertion_failure::init()`: the text streamed into `what_`. -/
def init (file_ : String) (line_ : Nat) (code_ : String) : String :=
  let text := "assertion"
  let text := if code_ ≠ "" then text ++ " \"" ++ code_ ++ "\"" else text
  let text := text ++ " failed"
  if file_ ≠ "" then
    let text := text ++ ": \"" ++ file_ ++ "\""
    if line_ ≠ 0 then text ++ ", line " ++ toString line_ else text
  else text

/-- The constructor `assertion_failure(file, line, code)`; the C++ default arguments
are `""`, `0` and `""`. -/
def construct (file : String) (line : Nat) (code : String) : assertion_failure :=
  ⟨file, line, code, init file line code⟩

/-- The constructor `assertion_failure(code)`. -/
def construct_code (code : String) : assertion_failure :=
  ⟨"", 0, code, init "" 0 code⟩

/-- The member `assertion_failure::what()`. -/
def what (self : assertion_failure) : String := self.what_

end assertion_failure

/-- The enumeration `boost::contract::from` of exception.hpp (`from` is reserved in
Lean). -/
inductive from_ where
  | from_constructor
  | from_destructor
  | from_public_member
  | from_protected_member
  | from_private_member
  | from_free_function
  deriving DecidableEq, Repr

/-- The exception being handled when a failure handler is called, by the `catch`
clause that matches it: an `assertion_failure`, another class derived from
`std::exception` (with its `what()`), or anything else (named, to tell exceptions
apart). -/
inductive exception where
  | assertion_failure (error : assertion_failure) : exception
  | std_exception (what : String) : exception
  | other (name : String) : exception
  deriving DecidableEq, Repr

/-- How a call of a failure handler ends: it returns to the check that called it, it
leaves by an exception, or it ends the process with `std::terminate`. -/
inductive handler_ending where
  | returned : handler_ending
  | threw (e : exception) : handler_ending
  | terminated : handler_ending
  deriving DecidableEq, Repr

/-- The type `failure_handler`, `void (*)(from)`.  A handler is called inside a `catch`
block, so besides `from` it depends on the exception being handled; its effect is the
lines it writes to the log stream and the way it ends. -/
abbrev failure_handler := from_ → exception → List String × handler_ending

namespace aux

namespace exception_

/-- The enumeration `failure_handler_key`. -/
inductive failure_handler_key where
  | pre_key
  | post_key
  | const_entry_inv_key
  | const_volatile_entry_inv_key
  | static_entry_inv_key
  | const_exit_inv_key
  | const_volatile_exit_inv_key
  | static_exit_inv_key
  deriving DecidableEq, Repr

/-- The function template `default_failure_handler<Key>(from const)`: the `switch` sets
`s`, the exception being handled is re-thrown and caught to write one line to
`std::cerr`, and `std::terminate()` is called. -/
def default_failure_handler (Key : failure_handler_key) : failure_handler :=
  fun _ e =>
    let s := match Key with
      | failure_handler_key.pre_key => "precondition "
      | failure_handler_key.post_key => "postcondition "
      | failure_handler_key.const_entry_inv_key => "const entry invariant "
      | failure_handler_key.const_volatile_entry_inv_key =>
          "const volatile entry invariant "
      | failure_handler_key.static_entry_inv_key => "static entry invariant "
      | failure_handler_key.const_exit_inv_key => "const exit invariant "
      | failure_handler_key.const_volatile_exit_inv_key =>
          "const volatile exit invariant "
      | failure_handler_key.static_exit_inv_key => "static exit invariant "
    let line := match e with
      | exception.assertion_failure error => s ++ error.what
      | exception.std_exception what =>
          s ++ "checking threw standard exception with " ++ "what(): " ++ what
      | exception.other _ => s ++ "checking threw unknown exception"
    ([line], handler_ending.terminated)

end exception_

/-- The eight global handler variables of namespace `aux`: the library's handler
registry. -/
structure handlers where
  pre_failure_handler : failure_handler
  post_failure_handler : failure_handler
  const_entry_inv_failure_handler : failure_handler
  const_volatile_entry_inv_failure_handler : failure_handler
  static_entry_inv_failure_handler : failure_handler
  const_exit_inv_failure_handler : failure_handler
  const_volatile_exit_inv_failure_handler : failure_handler
  static_exit_inv_failure_handler : failure_handler

/-- The initializers of the eight global handler variables. -/
def handlers.initial : handlers :=
  ⟨exception_.default_failure_handler exception_.failure_handler_key.pre_key,
   exception_.default_failure_handler exception_.failure_handler_key.post_key,
   exception_.default_failure_handler exception_.failure_handler_key.const_entry_inv_key,
   exception_.default_failure_handler
     exception_.failure_handler_key.const_volatile_entry_inv_key,
   exception_.default_failure_handler exception_.failure_handler_key.static_entry_inv_key,
   exception_.default_failure_handler exception_.failure_handler_key.const_exit_inv_key,
   exception_.default_failure_handler
     exception_.failure_handler_key.const_volatile_exit_inv_key,
   exception_.default_failure_handler exception_.failure_handler_key.static_exit_inv_key⟩

end aux

/-- The function `set_precondition_failure(f)`: the value returned and the registry
after the call. -/
def set_precondition_failure (f : failure_handler) (h : aux.handlers) :
    failure_handler × aux.handlers :=
  let result := h.pre_failure_handler
  (result, { h with pre_failure_handler := f })

/-- The function `set_postcondition_failure(f)`. -/
def set_postcondition_failure (f : failure_handler) (h : aux.handlers) :
    failure_handler × aux.handlers :=
  let result := h.post_failure_handler
  (result, { h with post_failure_handler := f })

/-- The function `set_const_entry_invariant_failure(f)`. -/
def set_const_entry_invariant_failure (f : failure_handler) (h : aux.handlers) :
    failure_handler × aux.handlers :=
  let result := h.const_entry_inv_failure_handler
  (result, { h with const_entry_inv_failure_handler := f })

/-- The function `set_const_volatile_entry_invariant_failure(f)`. -/
def set_const_volatile_entry_invariant_failure (f : failure_handler) (h : aux.handlers) :
    failure_handler × aux.handlers :=
  let result := h.const_volatile_entry_inv_failure_handler
  (result, { h with const_volatile_entry_inv_failure_handler := f })

/-- The function `set_static_entry_invariant_failure(f)`. -/
def set_static_entry_invariant_failure (f : failure_handler) (h : aux.handlers) :
    failure_handler × aux.handlers :=
  let result := h.static_entry_inv_failure_handler
  (result, { h with static_entry_inv_failure_handler := f })

/-- The function `set_entry_invariant_failure(f)`, returning `void`: the registry after
the three calls it makes. -/
def set_entry_invariant_failure (f : failure_handler) (h : aux.handlers) : aux.handlers :=
  let h := (set_const_entry_invariant_failure f h).2
  let h := (set_const_volatile_entry_invariant_failure f h).2
  (set_static_entry_invariant_failure f h).2

/-- The function `set_const_exit_invariant_failure(f)`. -/
def set_const_exit_invariant_failure (f : failure_handler) (h : aux.handlers) :
    failure_handler × aux.handlers :=
  let result := h.const_exit_inv_failure_handler
  (result, { h with const_exit_inv_failure_handler := f })

/-- The function `set_const_volatile_exit_invariant_failure(f)`. -/
def set_const_volatile_exit_invariant_failure (f : failure_handler) (h : aux.handlers) :
    failure_handler × aux.handlers :=
  let result := h.const_volatile_exit_inv_failure_handler
  (result, { h with const_volatile_exit_inv_failure_handler := f })

/-- The function `set_static_exit_invariant_failure(f)`. -/
def set_static_exit_invariant_failure (f : failure_handler) (h : aux.handlers) :
    failure_handler × aux.handlers :=
  let result := h.static_exit_inv_failure_handler
  (result, { h with static_exit_inv_failure_handler := f })

/-- The function `set_exit_invariant_failure(f)`, returning `void`. -/
def set_exit_invariant_failure (f : failure_handler) (h : aux.handlers) : aux.handlers :=
  let h := (set_const_exit_invariant_failure f h).2
  let h := (set_const_volatile_exit_invariant_failure f h).2
  (set_static_exit_invariant_failure f h).2

/-- The function `set_invariant_failure(f)`, returning `void`. -/
def set_invariant_failure (f : failure_handler) (h : aux.handlers) : aux.handlers :=
  let h := set_entry_invariant_failure f h
  set_exit_invariant_failure f h

/-! ## The example throw_on_failure.cpp -/

namespace throw_on_failure

/-- The lambda that `main` passes to the nested handler setters: from a destructor it
writes a line to `std::clog` and returns, otherwise it re-throws the exception being
handled (`throw;`). -/
def failure_handler_lambda : failure_handler :=
  fun where_ e =>
    if where_ = from_.from_destructor then
      (["ignored destructor contract failure"], handler_ending.returned)
    else ([], handler_ending.threw e)

end throw_on_failure

/-! ## core/exception.hpp: the operation kinds of the documented interface -/

namespace core

/-- The enumeration `boost::contract::from` of core/exception.hpp. -/
inductive from_ where
  | from_constructor
  | from_destructor
  | from_function
  deriving DecidableEq, Repr

/-- The type `from_failure_handler` of core/exception.hpp, a functor `void (from)`:
as for `failure_handler`, its effect depends on the exception being handled. -/
abbrev from_failure_handler := from_ → exception → List String × handler_ending

end core

namespace throw_on_failure

/-- The same lambda of `main`, with the parameter type it is written for, the
enumeration `from` of core/exception.hpp. -/
def from_failure_handler_lambda : core.from_failure_handler :=
  fun where_ e =>
    if where_ = core.from_.from_destructor then
      (["ignored destructor contract failure"], handler_ending.returned)
    else ([], handler_ending.threw e)

end throw_on_failure

/-! ## The example access.cpp -/

/-- The conversion of a `size_t` value to `unsigned` (32 bits): reduction modulo
`2 ^ 32`.  It is also the result of `unsigned` arithmetic. -/
def to_unsigned (n : Nat) : Nat := n % 2 ^ 32

namespace access

/-- The state of the class `vector<T>`, that is of its member `std::vector<T> vect_`:
the elements, and the `size_t` values of `vect_.capacity()` and `vect_.max_size()`. -/
structure vector (T : Type) where
  vect_ : List T
  vect_capacity : Nat
  vect_max_size : Nat

namespace vector

/-- The member `unsigned size() const`. -/
def size {T : Type} (self : vector T) : Nat := to_unsigned self.vect_.length

/-- The member `unsigned max_size() const`. -/
def max_size {T : Type} (self : vector T) : Nat := to_unsigned self.vect_max_size

/-- The member `unsigned capacity() const`. -/
def capacity {T : Type} (self : vector T) : Nat := to_unsigned self.vect_capacity

/-- The assertion of `vector<T>::invariant()`: `size() <= capacity()`. -/
def invariant {T : Type} (self : vector T) : Prop := self.size ≤ self.capacity

/-- The assertion of `pushable<T>::invariant()`: `capacity() <= max_size()`. -/
def pushable_invariant {T : Type} (self : vector T) : Prop :=
  self.capacity ≤ self.max_size

/-- The precondition of `pushable<T>::push_back`: `capacity() < max_size()`. -/
def pushable_push_back_precondition {T : Type} (self : vector T) : Prop :=
  self.capacity < self.max_size

/-- The precondition of `vector<T>::push_back`: `size() < max_size()`. -/
def push_back_precondition {T : Type} (self : vector T) : Prop :=
  self.size < self.max_size

/-- The old value `old_size = BOOST_CONTRACT_OLD(v, size())` of `vector<T>::push_back`,
evaluated where it is declared, before the body. -/
def push_back_old_size {T : Type} (self : vector T) : Nat := self.size

/-- The body `vect_.push_back(value)` of `vector<T>::push_back`, when it completes:
the element is appended; the capacity stays if there is room and otherwise becomes
`grown`, the capacity the implementation chooses when it reallocates. -/
def push_back_body {T : Type} (self : vector T) (value : T) (grown : Nat) : vector T :=
  ⟨self.vect_ ++ [value],
    if self.vect_.length < self.vect_capacity then self.vect_capacity else grown,
    self.vect_max_size⟩

/-- The postcondition of `vector<T>::push_back`, `size() == *old_size + 1`, on the state
after the body: the sum is computed in `unsigned` arithmetic. -/
def push_back_postcondition {T : Type} (self : vector T) (old_size : Nat) : Prop :=
  self.size = to_unsigned (old_size + 1)

end vector

end access

/-! ## The class `cstring` of throw_on_failure.cpp -/

namespace throw_on_failure

/-- A `char const*` argument: the null pointer (`none`), or a pointer to a string, given
by the characters that precede its terminating NUL. -/
abbrev c_string := Option (List Char)

/-- How the evaluation of an expression or statement of the example ends: with a value,
by an exception, or in undefined behaviour. -/
inductive evaluation (α : Type) where
  | value (a : α) : evaluation α
  | threw (e : exception) : evaluation α
  | undefined : evaluation α
  deriving DecidableEq, Repr

/-- The call `std::strlen(chars)`: the number of characters before the NUL; reading
through a null pointer is undefined behaviour. -/
def strlen (chars : c_string) : evaluation Nat :=
  match chars with
  | none => evaluation.undefined
  | some cs => evaluation.value cs.length

/-- The exception `too_large_error()`. -/
def too_large_error : exception := exception.other "too_large_error"

/-- Modelled from the spec: the macro `BOOST_CONTRACT_ASSERT` is defined in assert.hpp,
which is not among the sources.  "A failing predicate raises a typed assertion failure
carrying the literal source text of the failed condition" (the example's comment:
`Throw assertion_failure`); the exception also carries the file and the line of the
assertion. -/
def assertion_failed (line : Nat) (code : String) : exception :=
  exception.assertion_failure (assertion_failure.construct "throw_on_failure.cpp" line code)

/-- The data members of `cstring<MaxSize>`: the array `char chars_[MaxSize + 1]` and
`unsigned size_`. -/
structure cstring where
  chars_ : List Char
  size_ : Nat
  deriving DecidableEq, Repr

namespace cstring

/-- The functor passed to `constructor_precondition<cstring>`:
`BOOST_CONTRACT_ASSERT(chars);` and then
`if(std::strlen(chars) > MaxSize) throw too_large_error();`. -/
def constructor_precondition (MaxSize : Nat) (chars : c_string) : evaluation Unit :=
  if chars.isNone then evaluation.threw (assertion_failed 27 "chars")
  else
    match strlen chars with
    | evaluation.value n =>
        if n > MaxSize then evaluation.threw too_large_error else evaluation.value ()
    | evaluation.threw e => evaluation.threw e
    | evaluation.undefined => evaluation.undefined

/-- One assignment `chars_[i] = c`.  The index is recorded next to the array: a write
outside the array is undefined behaviour in C++, and the record is what the bound on
the indices is stated on. -/
def write (i : Nat) (c : Char) (st : List Char × List Nat) : List Char × List Nat :=
  (st.1.set i c, st.2 ++ [i])

/-- The body of the constructor, from the array as it is before (`chars_0`):
`size_ = std::strlen(chars);`, the loop
`for(unsigned i = 0; i < size_; ++i) chars_[i] = chars[i];` and
`chars_[size_] = 0;` (the NUL character).  The result is the object and the indices
written.  `size_` is `unsigned`, so the length is reduced modulo `2 ^ 32`. -/
def constructor_body (chars : c_string) (chars_0 : List Char) :
    evaluation (cstring × List Nat) :=
  match chars with
  | none => evaluation.undefined
  | some cs =>
    let size_ := to_unsigned cs.length
    let st := (List.range size_).foldl
      (fun st i => write i (cs.getD i (Char.ofNat 0)) st) (chars_0, [])
    let st := write size_ (Char.ofNat 0) st
    evaluation.value (⟨st.1, size_⟩, st.2)

/-- The member `size()`, as called from a contract: it returns `size_` (its own guard,
`Check invariants`, is not re-entered while a contract is being checked). -/
def size (self : cstring) : Nat := self.size_

/-- The member `invariant()`:
`if(size() > MaxSize) throw too_large_error();`, `BOOST_CONTRACT_ASSERT(chars_);` (an
array member is never null) and `BOOST_CONTRACT_ASSERT(chars_[size()] == 0)`, where `0`
stands for the NUL character literal of the source. -/
def invariant (MaxSize : Nat) (self : cstring) : evaluation Unit :=
  if self.size > MaxSize then evaluation.threw too_large_error
  else if self.chars_[self.size]? = some (Char.ofNat 0) then evaluation.value ()
  else evaluation.threw (assertion_failed 60 "chars_[size()] == 0")

/-- The postcondition of the constructor:
`BOOST_CONTRACT_ASSERT(size() == std::strlen(chars))`. -/
def constructor_postcondition (self : cstring) (chars : c_string) : evaluation Unit :=
  match strlen chars with
  | evaluation.value n =>
      if self.size = n then evaluation.value ()
      else evaluation.threw (assertion_failed 37 "size() == std::strlen(chars)")
  | evaluation.threw e => evaluation.threw e
  | evaluation.undefined => evaluation.undefined

end cstring

/-- How the construction of a `cstring` ends. -/
inductive construction where
  | constructed (s : cstring) : construction
  | raised (e : exception) : construction
  | terminated : construction
  | undefined : construction
  deriving DecidableEq, Repr

/-- Modelled from the spec: the routing of a failed check, which is code of
`constructor_precondition` and of the constructor guard (headers that are not among
the sources).  "Any exception thrown while checking is routed to the same
failure-handling path as a native assertion failure"; "a failure raised while checking
is routed to its category's handler", here with the operation kind `from_constructor`.
What follows depends on how the handler ends: if it throws, the exception leaves the
constructor; if it terminates, the process ends; if it returns, the construction goes
on with `rest`. -/
def checked (handler : failure_handler) (check : evaluation Unit) (rest : construction) :
    construction :=
  match check with
  | evaluation.value _ => rest
  | evaluation.undefined => construction.undefined
  | evaluation.threw e =>
    match (handler from_.from_constructor e).2 with
    | handler_ending.returned => rest
    | handler_ending.threw e1 => construction.raised e1
    | handler_ending.terminated => construction.terminated

/-- Modelled from the spec: the construction `cstring<MaxSize> s(chars)` under the
registry `h`; `constructor_precondition` and the guard `boost::contract::constructor`
are declared in headers that are not among the sources.  The precondition is checked
first, by the base `constructor_precondition<cstring>`; then "a guard created for
construction" skips the entry invariant (`cstring` declares no static invariant), the
body runs, and "exit invariants and postconditions still run on successful completion",
the invariant before the postcondition. -/
def cstring.construct (MaxSize : Nat) (h : aux.handlers) (chars : c_string)
    (chars_0 : List Char) : construction :=
  checked h.pre_failure_handler (cstring.constructor_precondition MaxSize chars)
    (match cstring.constructor_body chars chars_0 with
     | evaluation.undefined => construction.undefined
     | evaluation.threw e => construction.raised e
     | evaluation.value r =>
        checked h.const_exit_inv_failure_handler (cstring.invariant MaxSize r.1)
          (checked h.post_failure_handler (cstring.constructor_postcondition r.1 chars)
            (construction.constructed r.1)))

/-- The registry once the handler of `main` has been set for preconditions,
postconditions and invariants, one setter call for each. -/
def rethrowing_handlers : aux.handlers :=
  set_invariant_failure failure_handler_lambda
    (set_postcondition_failure failure_handler_lambda
      (set_precondition_failure failure_handler_lambda aux.handlers.initial).2).2

end throw_on_failure

namespace aux

/-! ## Lemmas on the control-flow combinators -/

open check check.subcontracted_pre_post_inv

theorem for_each_nil {β σ ε : Type} (f : β → action σ ε) (s : σ) :
    for_each [] f s = (outcome.returned, s) := rfl

theorem for_each_cons_returned {β σ ε : Type} (f : β → action σ ε) (b : β) (bs : List β)
    (s s1 : σ) (h : f b s = (outcome.returned, s1)) :
    for_each (b :: bs) f s = for_each bs f s1 := by
  simp [for_each, seq, h]

theorem for_each_cons_threw {β σ ε : Type} (f : β → action σ ε) (b : β) (bs : List β)
    (s s1 : σ) (t : thrown ε) (h : f b s = (outcome.threw t, s1)) :
    for_each (b :: bs) f s = (outcome.threw t, s1) := by
  simp [for_each, seq, h]

theorem for_each_append {β σ ε : Type} (f : β → action σ ε) (l1 l2 : List β) (s : σ) :
    for_each (l1 ++ l2) f s = seq (for_each l1 f) (for_each l2 f) s := by
  induction l1 generalizing s with
  | nil => simp [for_each, seq, skip]
  | cons b bs ih =>
    simp only [List.cons_append, for_each, seq]
    rcases h : f b s with ⟨r, s1⟩
    cases r with
    | returned => simpa [seq] using ih s1
    | threw t => rfl

/-- A base without the contract function is passed over by `check_base`. -/
theorem check_base_none {α σ ε : Type} (outer_ : subcontracted_pre_post_inv α σ ε)
    (virt_ : virtual_body) (b : base α σ ε) (h : b.member_function_address = none)
    (s : σ) : check_base outer_ virt_ b s = (outcome.returned, s) := by
  simp [check_base, h, call_base_function_false, skip]

/-- Outside `check_pre_only` mode `check_base` always returns, leaving the state as the
base's function left it. -/
theorem check_base_other_mode {α σ ε : Type} (outer_ : subcontracted_pre_post_inv α σ ε)
    (virt_ : virtual_body) (hv : virt_ ≠ virtual_body.check_pre_only)
    (f : α → virtual_body → action σ ε) (b : base α σ ε)
    (h : b.member_function_address = some f) (s : σ) :
    check_base outer_ virt_ b s = (outcome.returned, (f outer_.arg0_ virt_ s).2) := by
  simp only [check_base, h, call_base_function_true]
  rcases hr : f outer_.arg0_ virt_ s with ⟨r, s1⟩
  cases r with
  | returned => rfl
  | threw t => cases t <;> simp [hv]

/-- In `check_pre_only` mode `check_base` lets `no_error` through. -/
theorem check_base_pre_mode_no_error {α σ ε : Type}
    (outer_ : subcontracted_pre_post_inv α σ ε)
    (f : α → virtual_body → action σ ε) (b : base α σ ε)
    (h : b.member_function_address = some f) (s : σ)
    (hr : (f outer_.arg0_ virtual_body.check_pre_only s).1 = outcome.threw thrown.no_error) :
    check_base outer_ virtual_body.check_pre_only b s =
      (outcome.threw thrown.no_error,
       (f outer_.arg0_ virtual_body.check_pre_only s).2) := by
  simp only [check_base, h, call_base_function_true]
  rcases hf : f outer_.arg0_ virtual_body.check_pre_only s with ⟨r, s1⟩
  rw [hf] at hr
  simp only at hr
  subst hr
  simp

/-- In `check_pre_only` mode `check_base` returns whenever the base's function did
anything else than signal `no_error`: a failure it raised is absorbed. -/
theorem check_base_pre_mode_other {α σ ε : Type}
    (outer_ : subcontracted_pre_post_inv α σ ε)
    (f : α → virtual_body → action σ ε) (b : base α σ ε)
    (h : b.member_function_address = some f) (s : σ)
    (hr : (f outer_.arg0_ virtual_body.check_pre_only s).1 ≠ outcome.threw thrown.no_error) :
    check_base outer_ virtual_body.check_pre_only b s =
      (outcome.returned, (f outer_.arg0_ virtual_body.check_pre_only s).2) := by
  simp only [check_base, h, call_base_function_true]
  rcases hf : f outer_.arg0_ virtual_body.check_pre_only s with ⟨r, s1⟩
  rw [hf] at hr
  cases r with
  | returned => rfl
  | threw t =>
    cases t with
    | no_error => exact absurd rfl hr
    | failure e => simp

/-- The iteration over the bases never ends with a failure: `check_base` only lets
`no_error` escape. -/
theorem for_each_check_base_no_failure {α σ ε : Type}
    (outer_ : subcontracted_pre_post_inv α σ ε) (virt_ : virtual_body)
    (bs : List (base α σ ε)) (s : σ) (e : ε) :
    (for_each bs (check_base outer_ virt_) s).1 ≠ outcome.threw (thrown.failure e) := by
  induction bs generalizing s with
  | nil => simp [for_each, skip]
  | cons b bs ih =>
    simp only [for_each, seq]
    rcases hb : check_base outer_ virt_ b s with ⟨r, s1⟩
    cases r with
    | returned => exact ih s1
    | threw t =>
      cases t with
      | no_error => simp
      | failure e1 =>
        exfalso
        cases hm : b.member_function_address with
        | none => rw [check_base_none outer_ virt_ b hm] at hb; cases hb
        | some f =>
          by_cases hv : virt_ = virtual_body.check_pre_only
          · subst hv
            by_cases hr : (f outer_.arg0_ virtual_body.check_pre_only s).1
                = outcome.threw thrown.no_error
            · rw [check_base_pre_mode_no_error outer_ f b hm s hr] at hb; cases hb
            · rw [check_base_pre_mode_other outer_ f b hm s hr] at hb; cases hb
          · rw [check_base_other_mode outer_ virt_ hv f b hm] at hb; cases hb

/-! ## Lemmas on the observed composer -/

theorem evaluated_bases_nil {ι α ε : Type} :
    evaluated_bases ([] : List (declared_base ι α ε)) = [] := rfl

theorem evaluated_bases_cons_none {ι α ε : Type} (b : declared_base ι α ε)
    (bs : List (declared_base ι α ε)) (h : b.contract_function = none) :
    evaluated_bases (b :: bs) = evaluated_bases bs := by
  simp [evaluated_bases, List.filter, h]

theorem evaluated_bases_cons_some {ι α ε : Type} (b : declared_base ι α ε)
    (bs : List (declared_base ι α ε)) (f : α → virtual_body → outcome ε)
    (h : b.contract_function = some f) :
    evaluated_bases (b :: bs) = participant.base b.name :: evaluated_bases bs := by
  simp [evaluated_bases, List.filter, h]

theorem evaluated_bases_append {ι α ε : Type} (l1 l2 : List (declared_base ι α ε)) :
    evaluated_bases (l1 ++ l2) = evaluated_bases l1 ++ evaluated_bases l2 := by
  simp [evaluated_bases]

theorem override_not_mem_evaluated_bases {ι α ε : Type}
    (bs : List (declared_base ι α ε)) :
    participant.override ∉ evaluated_bases bs := by
  simp [evaluated_bases]

/-- One step of a pass that is not the precondition pass, on an observed base. -/
theorem check_base_observed_other_mode {ι α ε : Type}
    (outer_ : subcontracted_pre_post_inv α (List (participant ι)) ε)
    (virt_ : virtual_body) (hv : virt_ ≠ virtual_body.check_pre_only)
    (b : declared_base ι α ε) (log : List (participant ι)) :
    check_base outer_ virt_ b.observed log =
      (outcome.returned, log ++ evaluated_bases [b]) := by
  cases hc : b.contract_function with
  | none =>
    rw [check_base_none outer_ virt_ b.observed (by simp [declared_base.observed, hc])]
    simp [evaluated_bases_cons_none b [] hc, evaluated_bases_nil]
  | some f =>
    rw [check_base_other_mode outer_ virt_ hv
      (fun x virt => logged (participant.base b.name) (f x virt)) b.observed
      (by simp [declared_base.observed, hc])]
    simp [evaluated_bases_cons_some b [] f hc, evaluated_bases_nil, logged]

/-- A pass that is not the precondition pass visits every base that declares the
contract function, in list order, and returns. -/
theorem for_each_observed_other_mode {ι α ε : Type}
    (outer_ : subcontracted_pre_post_inv α (List (participant ι)) ε)
    (virt_ : virtual_body) (hv : virt_ ≠ virtual_body.check_pre_only)
    (bs : List (declared_base ι α ε)) (log : List (participant ι)) :
    for_each (bs.map declared_base.observed) (check_base outer_ virt_) log =
      (outcome.returned, log ++ evaluated_bases bs) := by
  induction bs generalizing log with
  | nil => simp [for_each, skip, evaluated_bases_nil]
  | cons b bs ih =>
    rw [List.map_cons, for_each_cons_returned _ _ _ _ _
      (check_base_observed_other_mode outer_ virt_ hv b log), ih]
    rw [show b :: bs = [b] ++ bs from rfl, evaluated_bases_append, List.append_assoc]

/-- One step of the precondition pass on an observed base that does not accept. -/
theorem check_base_observed_pre_reject {ι α ε : Type}
    (outer_ : subcontracted_pre_post_inv α (List (participant ι)) ε)
    (b : declared_base ι α ε) (h : ¬ b.accepts outer_.arg0_)
    (log : List (participant ι)) :
    check_base outer_ virtual_body.check_pre_only b.observed log =
      (outcome.returned, log ++ evaluated_bases [b]) := by
  cases hc : b.contract_function with
  | none =>
    rw [check_base_none outer_ _ b.observed (by simp [declared_base.observed, hc])]
    simp [evaluated_bases_cons_none b [] hc, evaluated_bases_nil]
  | some f =>
    have hne : f outer_.arg0_ virtual_body.check_pre_only ≠
        outcome.threw thrown.no_error := by
      simpa [declared_base.accepts, hc] using h
    rw [check_base_pre_mode_other outer_
      (fun x virt => logged (participant.base b.name) (f x virt)) b.observed
      (by simp [declared_base.observed, hc]) log (by simpa [logged] using hne)]
    simp [evaluated_bases_cons_some b [] f hc, evaluated_bases_nil, logged]

/-- One step of the precondition pass on an observed base that accepts. -/
theorem check_base_observed_pre_accept {ι α ε : Type}
    (outer_ : subcontracted_pre_post_inv α (List (participant ι)) ε)
    (b : declared_base ι α ε) (h : b.accepts outer_.arg0_)
    (log : List (participant ι)) :
    check_base outer_ virtual_body.check_pre_only b.observed log =
      (outcome.threw thrown.no_error, log ++ [participant.base b.name]) := by
  cases hc : b.contract_function with
  | none => simp [declared_base.accepts, hc] at h
  | some f =>
    have he : f outer_.arg0_ virtual_body.check_pre_only =
        outcome.threw thrown.no_error := by
      simpa [declared_base.accepts, hc] using h
    rw [check_base_pre_mode_no_error outer_
      (fun x virt => logged (participant.base b.name) (f x virt)) b.observed
      (by simp [declared_base.observed, hc]) log (by simpa [logged] using he)]
    simp [logged]

/-- The precondition pass over bases none of which accepts visits every base that
declares the contract function and returns. -/
theorem for_each_observed_pre_reject {ι α ε : Type}
    (outer_ : subcontracted_pre_post_inv α (List (participant ι)) ε)
    (bs : List (declared_base ι α ε)) (h : ∀ b ∈ bs, ¬ b.accepts outer_.arg0_)
    (log : List (participant ι)) :
    for_each (bs.map declared_base.observed)
        (check_base outer_ virtual_body.check_pre_only) log =
      (outcome.returned, log ++ evaluated_bases bs) := by
  induction bs generalizing log with
  | nil => simp [for_each, skip, evaluated_bases_nil]
  | cons b bs ih =>
    rw [List.map_cons, for_each_cons_returned _ _ _ _ _
      (check_base_observed_pre_reject outer_ b (h b (List.mem_cons_self b bs)) log),
      ih (fun c hc => h c (List.mem_cons_of_mem b hc))]
    rw [show b :: bs = [b] ++ bs from rfl, evaluated_bases_append, List.append_assoc]

/-- The precondition pass ends at the first base that accepts: the bases before it are
visited, the bases after it are not. -/
theorem for_each_observed_pre_accept {ι α ε : Type}
    (outer_ : subcontracted_pre_post_inv α (List (participant ι)) ε)
    (before : List (declared_base ι α ε)) (b : declared_base ι α ε)
    (after : List (declared_base ι α ε))
    (hbefore : ∀ c ∈ before, ¬ c.accepts outer_.arg0_) (hb : b.accepts outer_.arg0_)
    (log : List (participant ι)) :
    for_each ((before ++ b :: after).map declared_base.observed)
        (check_base outer_ virtual_body.check_pre_only) log =
      (outcome.threw thrown.no_error,
        log ++ evaluated_bases before ++ [participant.base b.name]) := by
  rw [List.map_append, for_each_append]
  simp only [seq]
  rw [for_each_observed_pre_reject outer_ before hbefore log, List.map_cons]
  simp only []
  rw [for_each_cons_threw _ _ _ _ _ _ (check_base_observed_pre_accept outer_ b hb _)]

/-- A list with an accepting base splits at its first accepting base. -/
theorem exists_first_accepting {ι α ε : Type} (x : α)
    (bs : List (declared_base ι α ε)) (h : ∃ b ∈ bs, b.accepts x) :
    ∃ before b after, bs = before ++ b :: after ∧
      (∀ c ∈ before, ¬ c.accepts x) ∧ b.accepts x := by
  induction bs with
  | nil => simp at h
  | cons a bs ih =>
    by_cases ha : a.accepts x
    · exact ⟨[], a, bs, rfl, by simp, ha⟩
    · have h1 : ∃ b ∈ bs, b.accepts x := by
        obtain ⟨b, hb, hacc⟩ := h
        rcases List.mem_cons.mp hb with hba | hmem
        · exact absurd (hba ▸ hacc) ha
        · exact ⟨b, hmem, hacc⟩
      obtain ⟨before, b, after, hsplit, hbefore, hb⟩ := ih h1
      refine ⟨a :: before, b, after, by simp [hsplit], ?_, hb⟩
      intro c hc
      rcases List.mem_cons.mp hc with hca | hmem
      · exact hca ▸ ha
      · exact hbefore c hmem

/-- The precondition pass of the observed composer when some base accepts. -/
theorem check_subcontracted_pre_observed_accept {ι α ε : Type}
    (before : List (declared_base ι α ε)) (b : declared_base ι α ε)
    (after : List (declared_base ι α ε)) (o : declared_override α ε) (x : α)
    (throw_on_failure : Bool)
    (hbefore : ∀ c ∈ before, ¬ c.accepts x) (hb : b.accepts x) :
    check_subcontracted_pre (observed (before ++ b :: after) o x) throw_on_failure [] =
      (outcome.returned, evaluated_bases before ++ [participant.base b.name]) := by
  have h := for_each_observed_pre_accept (observed (before ++ b :: after) o x)
    before b after hbefore hb []
  simp only [check_subcontracted_pre, try_catch_no_error, seq]
  simp only [observed] at h ⊢
  rw [h]
  simp

/-- The precondition pass of the observed composer when no base accepts. -/
theorem check_subcontracted_pre_observed_reject {ι α ε : Type}
    (bs : List (declared_base ι α ε)) (o : declared_override α ε) (x : α)
    (throw_on_failure : Bool) (h : ∀ b ∈ bs, ¬ b.accepts x) :
    check_subcontracted_pre (observed bs o x) throw_on_failure [] =
      (match o.check_pre throw_on_failure x with
        | outcome.threw thrown.no_error => outcome.returned
        | r => r,
       evaluated_bases bs ++ [participant.override]) := by
  have h1 := for_each_observed_pre_reject (observed bs o x) bs h []
  simp only [check_subcontracted_pre, try_catch_no_error, seq]
  simp only [observed] at h1 ⊢
  rw [h1]
  simp only [logged, List.nil_append]
  rcases o.check_pre throw_on_failure x with _ | t
  · rfl
  · cases t <;> rfl

/-! ## Precondition composition -/

/-- C1. Precondition composition is a logical OR: for every list of bases, every
override and every argument, `check_subcontracted_pre` returns normally (reports no
precondition failure) if and only if some base's precondition check accepts the
argument (signals `no_error` in `check_pre_only` mode) or the override's own
precondition check raises no failure. -/
theorem check_subcontracted_pre_logical_or {ι α ε : Type}
    (bs : List (declared_base ι α ε)) (o : declared_override α ε) (x : α)
    (throw_on_failure : Bool) :
    (check_subcontracted_pre (observed bs o x) throw_on_failure []).1 = outcome.returned ↔
      ((∃ b ∈ bs, b.accepts x) ∨ ¬ (o.check_pre throw_on_failure x).fails) := by
  by_cases h : ∃ b ∈ bs, b.accepts x
  · obtain ⟨before, b, after, hsplit, hbefore, hb⟩ := exists_first_accepting x bs h
    subst hsplit
    rw [check_subcontracted_pre_observed_accept before b after o x throw_on_failure hbefore hb]
    simp only [true_iff]
    exact Or.inl h
  · have hno : ∀ b ∈ bs, ¬ b.accepts x := fun b hb hacc => h ⟨b, hb, hacc⟩
    rw [check_subcontracted_pre_observed_reject bs o x throw_on_failure hno]
    simp only [h, false_or, outcome.fails]
    rcases o.check_pre throw_on_failure x with _ | t
    · simp
    · cases t <;> simp

/-! ## Postcondition composition -/

/-- C2. The code at the failing input: base `B` declares the postcondition `x < 10`,
override `O` the postcondition `x < 15`.  For `x = 12` the postcondition check of `B`
raises a failure, `check_base` absorbs it, the override's own check passes and
`check_subcontracted_post` returns normally: the call succeeds although the
postcondition of `B` does not hold. -/
theorem check_subcontracted_post_absorbs_base_failure :
    scenario_base_B.contract_function.map (fun f => f 12 virtual_body.check_post_only) =
      some (outcome.threw (thrown.failure "B::post")) ∧
    scenario_override_O.check_post 12 = outcome.returned ∧
    check_subcontracted_post (observed [scenario_base_B] scenario_override_O 12) [] =
      (outcome.returned, [participant.base "B", participant.override]) := by
  decide

/-- C3. The code at the failing input: bases `B` (postcondition `x < 10`) and `A`
(postcondition `x < 20`), override `O` (postcondition `x < 15`), `x = 12`.  The first
participant, `B`, fails; the pass nevertheless goes on to check `A` and `O` and returns
normally instead of failing with the failure of `B`. -/
theorem check_subcontracted_post_continues_after_base_failure :
    scenario_base_B.contract_function.map (fun f => f 12 virtual_body.check_post_only) =
      some (outcome.threw (thrown.failure "B::post")) ∧
    scenario_base_A.contract_function.map (fun f => f 12 virtual_body.check_post_only) =
      some (outcome.threw thrown.no_error) ∧
    scenario_override_O.check_post 12 = outcome.returned ∧
    check_subcontracted_post
        (observed [scenario_base_B, scenario_base_A] scenario_override_O 12) [] =
      (outcome.returned,
        [participant.base "B", participant.base "A", participant.override]) := by
  decide

/-! ## Order of evaluation in the precondition pass -/

/-- C4. Precondition checking stops at the first accepting participant.  The bases are
tried in list order and the override last: if `b` is the first base that accepts, the
checks evaluated are those of the bases before `b` and the one of `b`, no later base and
not the override; if no base accepts, every base's check and then the override's own
check are evaluated; so the override's own precondition is evaluated exactly when no
base accepted. -/
theorem check_subcontracted_pre_stops_at_first_accept {ι α ε : Type}
    (bs : List (declared_base ι α ε)) (o : declared_override α ε) (x : α)
    (throw_on_failure : Bool) :
    (∀ before b after, bs = before ++ b :: after →
        (∀ c ∈ before, ¬ c.accepts x) → b.accepts x →
        (check_subcontracted_pre (observed bs o x) throw_on_failure []).2 =
          evaluated_bases before ++ [participant.base b.name]) ∧
    ((∀ b ∈ bs, ¬ b.accepts x) →
        (check_subcontracted_pre (observed bs o x) throw_on_failure []).2 =
          evaluated_bases bs ++ [participant.override]) ∧
    (participant.override ∈
        (check_subcontracted_pre (observed bs o x) throw_on_failure []).2 ↔
      ∀ b ∈ bs, ¬ b.accepts x) := by
  refine ⟨?_, ?_, ?_⟩
  · intro before b after hsplit hbefore hb
    subst hsplit
    rw [check_subcontracted_pre_observed_accept before b after o x throw_on_failure hbefore hb]
  · intro hno
    rw [check_subcontracted_pre_observed_reject bs o x throw_on_failure hno]
  · by_cases h : ∃ b ∈ bs, b.accepts x
    · obtain ⟨before, b, after, hsplit, hbefore, hb⟩ := exists_first_accepting x bs h
      subst hsplit
      rw [check_subcontracted_pre_observed_accept before b after o x throw_on_failure
        hbefore hb]
      constructor
      · intro hmem
        simp only [List.mem_append, List.mem_singleton] at hmem
        rcases hmem with hmem | hmem
        · exact absurd hmem (override_not_mem_evaluated_bases before)
        · cases hmem
      · intro hno
        exact absurd hb (hno b (by simp))
    · have hno : ∀ b ∈ bs, ¬ b.accepts x := fun b hb hacc => h ⟨b, hb, hacc⟩
      rw [check_subcontracted_pre_observed_reject bs o x throw_on_failure hno]
      simp only [List.mem_append, List.mem_singleton, or_true, true_iff]
      exact hno

/-- C4, at a concrete input: bases `A` (`x < 3`), `N` (no contract function), `B`
(`x < 10`), then `A` again, override `O`; for `x = 7` base `A` rejects, `B` accepts, and
the checks evaluated are those of `A` and `B` only. -/
theorem check_subcontracted_pre_stops_at_first_accept_witness :
    (check_subcontracted_pre
        (observed [scenario_base_A, scenario_base_N, scenario_base_B, scenario_base_A]
          scenario_override_O 7) false []).2 =
      [participant.base "A", participant.base "B"] :=
  (check_subcontracted_pre_stops_at_first_accept
      [scenario_base_A, scenario_base_N, scenario_base_B, scenario_base_A]
      scenario_override_O 7 false).1
    [scenario_base_A, scenario_base_N] scenario_base_B [scenario_base_A] rfl
    (by decide) (by decide)

/-- C5. When no base accepts and the override's own precondition check raises the
failure `e`, `check_subcontracted_pre` fails with exactly that failure, whatever
failures the rejecting bases raised: those were absorbed by `check_base`, and nothing
but the participants' checks was evaluated. -/
theorem check_subcontracted_pre_failure_is_the_overrides {ι α ε : Type}
    (bs : List (declared_base ι α ε)) (o : declared_override α ε) (x : α)
    (throw_on_failure : Bool) (e : ε)
    (hno : ∀ b ∈ bs, ¬ b.accepts x)
    (hown : o.check_pre throw_on_failure x = outcome.threw (thrown.failure e)) :
    check_subcontracted_pre (observed bs o x) throw_on_failure [] =
      (outcome.threw (thrown.failure e), evaluated_bases bs ++ [participant.override]) := by
  rw [check_subcontracted_pre_observed_reject bs o x throw_on_failure hno, hown]

/-- C5, at a concrete input: for `x = 12` base `A` raises `A::pre`, base `B` raises
`B::pre`, the override raises `O::pre`, and the caller sees `O::pre` alone. -/
theorem check_subcontracted_pre_failure_is_the_overrides_witness :
    scenario_base_A.contract_function.map (fun f => f 12 virtual_body.check_pre_only) =
      some (outcome.threw (thrown.failure "A::pre")) ∧
    scenario_base_B.contract_function.map (fun f => f 12 virtual_body.check_pre_only) =
      some (outcome.threw (thrown.failure "B::pre")) ∧
    check_subcontracted_pre
        (observed [scenario_base_A, scenario_base_B] scenario_override_O 12) false [] =
      (outcome.threw (thrown.failure "O::pre"),
        [participant.base "A", participant.base "B", participant.override]) :=
  ⟨by decide, by decide,
    check_subcontracted_pre_failure_is_the_overrides
      [scenario_base_A, scenario_base_B] scenario_override_O 12 false "O::pre"
      (by decide) (by decide)⟩

/-- C6. Weakening law.  If the override supplies no precondition functor, so that its
own check is the statement `if(pre_) pre_();` with `pre_` unset, then
`check_subcontracted_pre` returns normally for every list of bases, whatever each base's
contract function does (accept, reject, or anything else), for every argument and from
every state. -/
theorem check_subcontracted_pre_without_own_precondition {α σ ε : Type}
    (bases : List (base α σ ε)) (x : α)
    (check_post check_entry_inv check_exit_inv : action σ ε)
    (throw_on_failure : Bool) (s : σ) :
    (check_subcontracted_pre
        ⟨bases, x, fun _ => call_if_set none, check_post, check_entry_inv, check_exit_inv⟩
        throw_on_failure s).1 = outcome.returned := by
  simp only [check_subcontracted_pre, try_catch_no_error, seq]
  have hnf := for_each_check_base_no_failure
    (⟨bases, x, fun _ => call_if_set none, check_post, check_entry_inv,
      check_exit_inv⟩ : subcontracted_pre_post_inv α σ ε)
    virtual_body.check_pre_only bases s
  rcases hfe : for_each bases (check_base
    (⟨bases, x, fun _ => call_if_set none, check_post, check_entry_inv,
      check_exit_inv⟩ : subcontracted_pre_post_inv α σ ε)
    virtual_body.check_pre_only) s with ⟨r, s1⟩
  rw [hfe] at hnf
  cases r with
  | returned => simp [call_if_set, skip]
  | threw t =>
    cases t with
    | no_error => rfl
    | failure e => exact absurd rfl (hnf e)

/-- C7, refuted as stated: base `B` declares the precondition `x < 10`, its override
`O` the stricter `x < 5`.  The argument `7` satisfies the precondition of `B` and not the
one of `O`, and `check_subcontracted_pre` returns normally: the call is not rejected. -/
theorem scenario_B_call_is_accepted :
    scenario_base_B.accepts 7 ∧
    scenario_override_O.check_pre false 7 = outcome.threw (thrown.failure "O::pre") ∧
    check_subcontracted_pre (observed [scenario_base_B] scenario_override_O 7) false [] =
      (outcome.returned, [participant.base "B"]) := by
  decide

/-- C7, amended.  When a base and its override both declare a precondition and the
override's is stricter, a call whose argument satisfies the base's precondition and not
the override's is accepted: the base's acceptance ends the precondition pass, and the
override's own precondition is not evaluated. -/
theorem check_subcontracted_pre_base_acceptance_suffices {ι α ε : Type}
    (bs : List (declared_base ι α ε)) (o : declared_override α ε) (x : α)
    (throw_on_failure : Bool)
    (hbase : ∃ b ∈ bs, b.accepts x) (_hown : (o.check_pre throw_on_failure x).fails) :
    (check_subcontracted_pre (observed bs o x) throw_on_failure []).1 = outcome.returned ∧
    participant.override ∉
      (check_subcontracted_pre (observed bs o x) throw_on_failure []).2 := by
  obtain ⟨before, b, after, hsplit, hbefore, hb⟩ := exists_first_accepting x bs hbase
  subst hsplit
  rw [check_subcontracted_pre_observed_accept before b after o x throw_on_failure hbefore hb]
  refine ⟨rfl, ?_⟩
  simp only [List.mem_append, List.mem_singleton, not_or]
  exact ⟨override_not_mem_evaluated_bases before, fun h => by cases h⟩

/-- C7, amended, at a concrete input: bases `A` (`x < 3`) and `B` (`x < 10`), override
`O` (`x < 5`), argument `8`. -/
theorem check_subcontracted_pre_base_acceptance_suffices_witness :
    (check_subcontracted_pre
        (observed [scenario_base_A, scenario_base_B] scenario_override_O 8) false []).1 =
      outcome.returned ∧
    participant.override ∉
      (check_subcontracted_pre
        (observed [scenario_base_A, scenario_base_B] scenario_override_O 8) false []).2 :=
  check_subcontracted_pre_base_acceptance_suffices
    [scenario_base_A, scenario_base_B] scenario_override_O 8 false
    ⟨scenario_base_B, by simp, by decide⟩ ⟨"O::pre", by decide⟩

/-! ## Invariant composition -/

/-- The base actions of `function::check_inv`, each recording its evaluation and
returning: the pass visits every base in list order. -/
theorem for_each_logged_returned {ι ε : Type} (names : List ι)
    (log : List (participant ι)) :
    for_each names
        (fun i => (logged (participant.base i) outcome.returned :
          action (List (participant ι)) ε)) log =
      (outcome.returned, log ++ names.map participant.base) := by
  induction names generalizing log with
  | nil => simp [for_each, skip]
  | cons i names ih =>
    rw [for_each_cons_returned _ i names log (log ++ [participant.base i]) rfl, ih]
    simp

/-- C8, refuted as stated: for a class with the single base `B`, the entry-invariant
pass evaluates the invariant of `B` first and the override's own invariant after it. -/
theorem entry_inv_checks_base_before_override :
    check_subcontracted_entry_inv (observed [scenario_base_B] scenario_override_O 7) [] =
      (outcome.returned, [participant.base "B", participant.override]) := by
  decide

/-- C8, amended.  Entry invariants are checked for each base first, in list order, and
then for the override: `check_subcontracted_entry_inv` evaluates the check of every base
that declares the contract function and then the override's own entry invariant, whose
outcome is the outcome of the pass; `function::check_inv` likewise runs its base actions
before the class's own invariant. -/
theorem check_subcontracted_entry_inv_bases_then_override {ι α ε : Type}
    (bs : List (declared_base ι α ε)) (o : declared_override α ε) (x : α)
    (names : List ι) (pre_ post_ : Option (action (List (participant ι)) ε))
    (virt_ : virtual_body) (r : outcome ε) :
    check_subcontracted_entry_inv (observed bs o x) [] =
      (o.check_entry_inv x, evaluated_bases bs ++ [participant.override]) ∧
    function.check_inv
        ⟨names, fun _ i => logged (participant.base i) outcome.returned,
          some (logged participant.override r), pre_, post_, virt_⟩ [] =
      (r, names.map participant.base ++ [participant.override]) := by
  constructor
  · have h := for_each_observed_other_mode (observed bs o x)
      virtual_body.check_entry_inv_only (by decide) bs []
    simp only [check_subcontracted_entry_inv, seq]
    simp only [observed] at h ⊢
    rw [h]
    simp [logged]
  · simp only [function.check_inv, seq]
    rw [for_each_logged_returned names []]
    simp [logged]

/-- C9, refuted as stated: for a class with the single base `B`, the exit-invariant
pass evaluates `B` and then the override, which is not the reverse of the order of the
entry-invariant pass. -/
theorem exit_inv_order_is_not_reversed :
    (check_subcontracted_exit_inv (observed [scenario_base_B] scenario_override_O 7) []).2 =
      [participant.base "B", participant.override] ∧
    (check_subcontracted_exit_inv (observed [scenario_base_B] scenario_override_O 7) []).2 ≠
      ((check_subcontracted_entry_inv
        (observed [scenario_base_B] scenario_override_O 7) []).2).reverse := by
  decide

/-- C9, amended.  Exit invariants are checked in the same order as entry invariants:
for every list of bases and every override, `check_subcontracted_exit_inv` evaluates the
participants' invariants in the sequence in which `check_subcontracted_entry_inv`
evaluates them, the bases in list order and then the override. -/
theorem check_subcontracted_exit_inv_same_order_as_entry {ι α ε : Type}
    (bs : List (declared_base ι α ε)) (o : declared_override α ε) (x : α) :
    (check_subcontracted_exit_inv (observed bs o x) []).2 =
      (check_subcontracted_entry_inv (observed bs o x) []).2 ∧
    (check_subcontracted_exit_inv (observed bs o x) []).2 =
      evaluated_bases bs ++ [participant.override] := by
  have hx := for_each_observed_other_mode (observed bs o x)
    virtual_body.check_exit_inv_only (by decide) bs []
  have he := for_each_observed_other_mode (observed bs o x)
    virtual_body.check_entry_inv_only (by decide) bs []
  simp only [check_subcontracted_exit_inv, check_subcontracted_entry_inv, seq]
  simp only [observed] at hx he ⊢
  rw [hx, he]
  simp [logged]

/-! ## Bases without a compatible contract function -/

/-- The functor `check_base` uses of its outer object only the captured argument. -/
theorem check_base_outer_irrelevant {α σ ε : Type}
    (o1 o2 : subcontracted_pre_post_inv α σ ε) (h : o1.arg0_ = o2.arg0_)
    (virt_ : virtual_body) (b : base α σ ε) :
    check_base o1 virt_ b = check_base o2 virt_ b := by
  unfold check_base
  cases b.member_function_address with
  | none => rfl
  | some f =>
    show call_base_function_true o1 virt_ f = call_base_function_true o2 virt_ f
    unfold call_base_function_true
    rw [h]

/-- Dropping the bases without the contract function does not change the iteration. -/
theorem for_each_filter_has_member_function {α σ ε : Type}
    (o1 o2 : subcontracted_pre_post_inv α σ ε) (h : o1.arg0_ = o2.arg0_)
    (virt_ : virtual_body) (bases : List (base α σ ε)) :
    for_each bases (check_base o1 virt_) =
      for_each (bases.filter base.has_member_function) (check_base o2 virt_) := by
  induction bases with
  | nil => rfl
  | cons b bs ih =>
    cases hm : b.member_function_address with
    | none =>
      have hf : (b :: bs).filter base.has_member_function =
          bs.filter base.has_member_function := by
        simp [List.filter, base.has_member_function, hm]
      rw [hf, ← ih]
      funext s
      rw [for_each_cons_returned _ b bs s s (check_base_none o1 virt_ b hm s)]
    | some f =>
      have hf : (b :: bs).filter base.has_member_function =
          b :: bs.filter base.has_member_function := by
        simp [List.filter, base.has_member_function, hm]
      rw [hf]
      simp only [for_each]
      rw [ih, check_base_outer_irrelevant o1 o2 h virt_ b]

/-- C10. A base that declares no compatible contract function contributes nothing: in
each of the four passes (precondition, postcondition, entry invariant, exit invariant),
from every state, the outcome and the state left behind (hence every trace of evaluated
checks that the state records) are the same as for the list of bases from which every
base without the contract function has been removed. -/
theorem bases_without_contract_function_contribute_nothing {α σ ε : Type}
    (bases : List (base α σ ε)) (x : α) (check_pre : Bool → action σ ε)
    (check_post check_entry_inv check_exit_inv : action σ ε)
    (throw_on_failure : Bool) (s : σ) :
    check_subcontracted_pre
        ⟨bases, x, check_pre, check_post, check_entry_inv, check_exit_inv⟩
        throw_on_failure s =
      check_subcontracted_pre
        ⟨bases.filter base.has_member_function, x, check_pre, check_post,
          check_entry_inv, check_exit_inv⟩ throw_on_failure s ∧
    check_subcontracted_post
        ⟨bases, x, check_pre, check_post, check_entry_inv, check_exit_inv⟩ s =
      check_subcontracted_post
        ⟨bases.filter base.has_member_function, x, check_pre, check_post,
          check_entry_inv, check_exit_inv⟩ s ∧
    check_subcontracted_entry_inv
        ⟨bases, x, check_pre, check_post, check_entry_inv, check_exit_inv⟩ s =
      check_subcontracted_entry_inv
        ⟨bases.filter base.has_member_function, x, check_pre, check_post,
          check_entry_inv, check_exit_inv⟩ s ∧
    check_subcontracted_exit_inv
        ⟨bases, x, check_pre, check_post, check_entry_inv, check_exit_inv⟩ s =
      check_subcontracted_exit_inv
        ⟨bases.filter base.has_member_function, x, check_pre, check_post,
          check_entry_inv, check_exit_inv⟩ s := by
  have key := fun virt_ => for_each_filter_has_member_function
    (⟨bases, x, check_pre, check_post, check_entry_inv, check_exit_inv⟩ :
      subcontracted_pre_post_inv α σ ε)
    (⟨bases.filter base.has_member_function, x, check_pre, check_post,
      check_entry_inv, check_exit_inv⟩ : subcontracted_pre_post_inv α σ ε)
    rfl virt_ bases
  refine ⟨?_, ?_, ?_, ?_⟩
  · simp only [check_subcontracted_pre]; rw [key]
  · simp only [check_subcontracted_post]; rw [key]
  · simp only [check_subcontracted_entry_inv]; rw [key]
  · simp only [check_subcontracted_exit_inv]; rw [key]

/-! ## The single-level checker `aux::function` -/

/-- Checks that record their evaluation and return are all run, in list order. -/
theorem for_each_logged_events {ι κ ε : Type} (g : ι → κ) (names : List ι)
    (log : List κ) :
    for_each names (fun i => (logged (g i) outcome.returned : action (List κ) ε)) log =
      (outcome.returned, log ++ names.map g) := by
  induction names generalizing log with
  | nil => simp [for_each, skip]
  | cons i names ih =>
    rw [for_each_cons_returned _ i names log (log ++ [g i]) rfl, ih]
    simp

theorem function_observed_check_inv {ι ε : Type} (names : List ι) (virt : virtual_body)
    (inv pre post : outcome ε) (log : List (check_event ι)) :
    (function.observed names virt inv pre post).check_inv log =
      (inv, log ++ category_events names virtual_body.check_inv_only
        check_event.invariant) := by
  simp only [function.check_inv, function.observed, seq]
  rw [for_each_logged_events]
  simp [logged, category_events]

theorem function_observed_check_pre {ι ε : Type} (names : List ι) (virt : virtual_body)
    (inv pre post : outcome ε) (log : List (check_event ι)) :
    (function.observed names virt inv pre post).check_pre log =
      (pre, log ++ category_events names virtual_body.check_pre_only
        check_event.precondition) := by
  simp only [function.check_pre, function.observed, seq, call_if_set]
  rw [for_each_logged_events]
  simp [logged, category_events]

theorem function_observed_check_post {ι ε : Type} (names : List ι) (virt : virtual_body)
    (inv pre post : outcome ε) (log : List (check_event ι)) :
    (function.observed names virt inv pre post).check_post log =
      (post, log ++ category_events names virtual_body.check_post_only
        check_event.postcondition) := by
  simp only [function.check_post, function.observed, seq, call_if_set]
  rw [for_each_logged_events]
  simp [logged, category_events]

/-- A user call on the observed checker, all checks passing, for any way the body
ends: the checks evaluated are the entry invariant, the precondition, the body, and then
the destructor's invariant and postcondition. -/
theorem contracted_call_observed_user_call {ι ε : Type} (names : List ι)
    (r : outcome ε) :
    contracted_call
        (function.observed names virtual_body.user_call outcome.returned
          outcome.returned outcome.returned)
        (logged check_event.body r) [] =
      (ending.finished r,
        category_events names virtual_body.check_inv_only check_event.invariant ++
        category_events names virtual_body.check_pre_only check_event.precondition ++
        [check_event.body] ++
        category_events names virtual_body.check_inv_only check_event.invariant ++
        category_events names virtual_body.check_post_only check_event.postcondition) := by
  have hv : (function.observed names virtual_body.user_call (outcome.returned : outcome ε)
      outcome.returned outcome.returned).virt_ = virtual_body.user_call := rfl
  simp only [contracted_call, function.init, function.pre_available,
    function.post_available, function.destructor, hv, if_true, seq,
    function_observed_check_inv, function_observed_check_pre,
    function_observed_check_post, List.nil_append]
  simp only [show virtual_body.user_call ≠ virtual_body.check_post_only by decide,
    if_false, skip, logged]
  cases r with
  | returned => simp
  | threw t => simp

/-- C11. For a user call whose checks all pass and whose body completes normally,
`aux::function` evaluates exactly: class invariant, precondition, body, class invariant,
postcondition, each check preceded by the actions of the bases for its category; for a
class without bases the sequence is those five steps.  The entry invariant precedes the
precondition and the exit invariant precedes the postcondition. -/
theorem user_call_evaluates_inv_pre_body_inv_post {ι ε : Type} (names : List ι) :
    contracted_call
        (function.observed names virtual_body.user_call (outcome.returned : outcome ε)
          outcome.returned outcome.returned)
        (logged check_event.body outcome.returned) [] =
      (ending.finished outcome.returned,
        category_events names virtual_body.check_inv_only check_event.invariant ++
        category_events names virtual_body.check_pre_only check_event.precondition ++
        [check_event.body] ++
        category_events names virtual_body.check_inv_only check_event.invariant ++
        category_events names virtual_body.check_post_only check_event.postcondition) ∧
    contracted_call
        (function.observed ([] : List ι) virtual_body.user_call
          (outcome.returned : outcome ε) outcome.returned outcome.returned)
        (logged check_event.body outcome.returned) [] =
      (ending.finished outcome.returned,
        [check_event.invariant, check_event.precondition, check_event.body,
          check_event.invariant, check_event.postcondition]) := by
  constructor
  · exact contracted_call_observed_user_call names outcome.returned
  · rw [contracted_call_observed_user_call]
    rfl

/-- C12, refuted as stated: the body of a user call raises an exception, and the
destructor of the checker evaluates the invariant and the postcondition as well. -/
theorem destructor_checks_postcondition_after_exception :
    contracted_call
        (function.observed ([] : List String) virtual_body.user_call
          (outcome.returned : outcome String) outcome.returned outcome.returned)
        (logged check_event.body (outcome.threw (thrown.failure "body failed"))) [] =
      (ending.finished (outcome.threw (thrown.failure "body failed")),
        [check_event.invariant, check_event.precondition, check_event.body,
          check_event.invariant, check_event.postcondition]) := by
  decide

/-- C12, amended.  When the body of a user call terminates by raising an exception, the
guard's exit checking evaluates the invariant and then the postcondition, the same
checks as after a body that completes normally; when they pass, the body's exception
goes on to the caller. -/
theorem user_call_exit_checks_after_exception {ι ε : Type} (names : List ι)
    (t : thrown ε) :
    contracted_call
        (function.observed names virtual_body.user_call outcome.returned
          outcome.returned outcome.returned)
        (logged check_event.body (outcome.threw t)) [] =
      (ending.finished (outcome.threw t),
        category_events names virtual_body.check_inv_only check_event.invariant ++
        category_events names virtual_body.check_pre_only check_event.precondition ++
        [check_event.body] ++
        category_events names virtual_body.check_inv_only check_event.invariant ++
        category_events names virtual_body.check_post_only check_event.postcondition) :=
  contracted_call_observed_user_call names (outcome.threw t)

/-- A check followed by `throw no_error` never returns. -/
theorem seq_throw_no_error_threw {σ ε : Type} (a : action σ ε) (s : σ) :
    ∃ t, (seq a function.throw_no_error s).1 = outcome.threw t := by
  simp only [seq]
  rcases a s with ⟨r, s1⟩
  cases r with
  | returned => exact ⟨thrown.no_error, rfl⟩
  | threw t => exact ⟨t, rfl⟩

/-- A call made for contract composition only, with action `check_inv_only`,
`check_pre_only` or `check_post_only`, runs the member for that one category followed by
`throw no_error` and nothing else, whatever the body and the other members are; it is
never left normally, and its destructor runs nothing. -/
theorem contracted_call_composition_only {β σ ε : Type} (f : function β σ ε)
    (body : action σ ε) (s : σ) :
    (f.virt_ = virtual_body.check_inv_only →
      contracted_call f body s =
        (ending.finished (seq f.check_inv function.throw_no_error s).1,
          (seq f.check_inv function.throw_no_error s).2)) ∧
    (f.virt_ = virtual_body.check_pre_only →
      contracted_call f body s =
        (ending.finished (seq f.check_pre function.throw_no_error s).1,
          (seq f.check_pre function.throw_no_error s).2)) ∧
    (f.virt_ = virtual_body.check_post_only →
      contracted_call f body s =
        (ending.finished (seq f.check_post function.throw_no_error s).1,
          (seq f.check_post function.throw_no_error s).2)) ∧
    (f.virt_ = virtual_body.check_inv_only ∨ f.virt_ = virtual_body.check_pre_only ∨
        f.virt_ = virtual_body.check_post_only →
      (contracted_call f body s).1 ≠ ending.finished outcome.returned ∧
      f.destructor s = (outcome.returned, s)) := by
  have h1 : f.virt_ = virtual_body.check_inv_only →
      contracted_call f body s =
        (ending.finished (seq f.check_inv function.throw_no_error s).1,
          (seq f.check_inv function.throw_no_error s).2) := by
    intro hv
    obtain ⟨t, ht⟩ := seq_throw_no_error_threw f.check_inv s
    simp only [contracted_call, function.init, hv,
      show virtual_body.check_inv_only ≠ virtual_body.user_call by decide, if_false,
      if_true]
    rcases hr : seq f.check_inv function.throw_no_error s with ⟨r, s1⟩
    rw [hr] at ht
    simp only at ht
    subst ht
    rfl
  have h2 : f.virt_ = virtual_body.check_pre_only →
      contracted_call f body s =
        (ending.finished (seq f.check_pre function.throw_no_error s).1,
          (seq f.check_pre function.throw_no_error s).2) := by
    intro hv
    obtain ⟨t, ht⟩ := seq_throw_no_error_threw f.check_pre s
    simp only [contracted_call, function.init, function.pre_available,
      function.destructor, hv,
      show virtual_body.check_pre_only ≠ virtual_body.user_call by decide,
      show virtual_body.check_pre_only ≠ virtual_body.check_inv_only by decide,
      if_false, if_true]
    rcases hr : seq f.check_pre function.throw_no_error s with ⟨r, s1⟩
    rw [hr] at ht
    simp only at ht
    subst ht
    simp only [seq, skip] at hr ⊢
    rw [hr]
  have h3 : f.virt_ = virtual_body.check_post_only →
      contracted_call f body s =
        (ending.finished (seq f.check_post function.throw_no_error s).1,
          (seq f.check_post function.throw_no_error s).2) := by
    intro hv
    obtain ⟨t, ht⟩ := seq_throw_no_error_threw f.check_post s
    simp only [contracted_call, function.init, function.pre_available,
      function.post_available, function.destructor, hv,
      show virtual_body.check_post_only ≠ virtual_body.user_call by decide,
      show virtual_body.check_post_only ≠ virtual_body.check_inv_only by decide,
      show virtual_body.check_post_only ≠ virtual_body.check_pre_only by decide,
      if_false, if_true]
    rcases hr : seq f.check_post function.throw_no_error s with ⟨r, s1⟩
    rw [hr] at ht
    simp only at ht
    subst ht
    simp only [seq, skip] at hr ⊢
    rw [hr]
  refine ⟨h1, h2, h3, ?_⟩
  intro hv
  have hne : f.virt_ ≠ virtual_body.user_call := by
    rcases hv with h | h | h <;> rw [h] <;> decide
  refine ⟨?_, by simp [function.destructor, hne, skip]⟩
  rcases hv with h | h | h
  · rw [h1 h]
    obtain ⟨t, ht⟩ := seq_throw_no_error_threw f.check_inv s
    simp [ht]
  · rw [h2 h]
    obtain ⟨t, ht⟩ := seq_throw_no_error_threw f.check_pre s
    simp [ht]
  · rw [h3 h]
    obtain ⟨t, ht⟩ := seq_throw_no_error_threw f.check_post s
    simp [ht]

/-- C13. A base invoked only for contract composition does not re-run its own pairing.
For a class with the bases `names`, whatever the body is and however the other checks
would end, a checker created with `check_inv_only`, `check_pre_only` or
`check_post_only` evaluates over its whole lifetime exactly the checks of that one
category, the action of each base for the category, in order, and then its own check;
it leaves by `no_error` when the check passes and by the check's failure otherwise, so
the body is never reached; and its destructor evaluates no check. -/
theorem composition_call_evaluates_one_category {ι ε : Type} (names : List ι)
    (inv pre post : outcome ε) (t : thrown ε)
    (body : action (List (check_event ι)) ε) :
    contracted_call
        (function.observed names virtual_body.check_inv_only outcome.returned pre post)
        body [] =
      (ending.finished (outcome.threw thrown.no_error),
        category_events names virtual_body.check_inv_only check_event.invariant) ∧
    contracted_call
        (function.observed names virtual_body.check_inv_only (outcome.threw t) pre post)
        body [] =
      (ending.finished (outcome.threw t),
        category_events names virtual_body.check_inv_only check_event.invariant) ∧
    contracted_call
        (function.observed names virtual_body.check_pre_only inv outcome.returned post)
        body [] =
      (ending.finished (outcome.threw thrown.no_error),
        category_events names virtual_body.check_pre_only check_event.precondition) ∧
    contracted_call
        (function.observed names virtual_body.check_pre_only inv (outcome.threw t) post)
        body [] =
      (ending.finished (outcome.threw t),
        category_events names virtual_body.check_pre_only check_event.precondition) ∧
    contracted_call
        (function.observed names virtual_body.check_post_only inv pre outcome.returned)
        body [] =
      (ending.finished (outcome.threw thrown.no_error),
        category_events names virtual_body.check_post_only check_event.postcondition) ∧
    contracted_call
        (function.observed names virtual_body.check_post_only inv pre (outcome.threw t))
        body [] =
      (ending.finished (outcome.threw t),
        category_events names virtual_body.check_post_only check_event.postcondition) ∧
    (∀ log, (function.observed names virtual_body.check_inv_only inv pre post).destructor
      log = (outcome.returned, log)) ∧
    (∀ log, (function.observed names virtual_body.check_pre_only inv pre post).destructor
      log = (outcome.returned, log)) ∧
    (∀ log, (function.observed names virtual_body.check_post_only inv pre post).destructor
      log = (outcome.returned, log)) := by
  refine ⟨?_, ?_, ?_, ?_, ?_, ?_, fun _ => rfl, fun _ => rfl, fun _ => rfl⟩
  · rw [(contracted_call_composition_only _ body []).1 rfl]
    simp [seq, function_observed_check_inv, function.throw_no_error]
  · rw [(contracted_call_composition_only _ body []).1 rfl]
    simp [seq, function_observed_check_inv]
  · rw [(contracted_call_composition_only _ body []).2.1 rfl]
    simp [seq, function_observed_check_pre, function.throw_no_error]
  · rw [(contracted_call_composition_only _ body []).2.1 rfl]
    simp [seq, function_observed_check_pre]
  · rw [(contracted_call_composition_only _ body []).2.2.1 rfl]
    simp [seq, function_observed_check_post, function.throw_no_error]
  · rw [(contracted_call_composition_only _ body []).2.2.1 rfl]
    simp [seq, function_observed_check_post]

end aux

/-! ## The failure-handler registry -/

open aux aux.exception_

/-- C14. Replacing a handler returns the previous one: for every handler `f` and every
state `h` of the registry, each of the eight setters of a single slot (precondition,
postcondition, const / const volatile / static entry invariant, const / const volatile /
static exit invariant) returns the handler its slot held before the call, and the slot
holds `f` afterwards. -/
theorem setters_return_previous_handler (f : failure_handler) (h : handlers) :
    ((set_precondition_failure f h).1 = h.pre_failure_handler ∧
      (set_precondition_failure f h).2.pre_failure_handler = f) ∧
    ((set_postcondition_failure f h).1 = h.post_failure_handler ∧
      (set_postcondition_failure f h).2.post_failure_handler = f) ∧
    ((set_const_entry_invariant_failure f h).1 = h.const_entry_inv_failure_handler ∧
      (set_const_entry_invariant_failure f h).2.const_entry_inv_failure_handler = f) ∧
    ((set_const_volatile_entry_invariant_failure f h).1 =
        h.const_volatile_entry_inv_failure_handler ∧
      (set_const_volatile_entry_invariant_failure f h).2.const_volatile_entry_inv_failure_handler
        = f) ∧
    ((set_static_entry_invariant_failure f h).1 = h.static_entry_inv_failure_handler ∧
      (set_static_entry_invariant_failure f h).2.static_entry_inv_failure_handler = f) ∧
    ((set_const_exit_invariant_failure f h).1 = h.const_exit_inv_failure_handler ∧
      (set_const_exit_invariant_failure f h).2.const_exit_inv_failure_handler = f) ∧
    ((set_const_volatile_exit_invariant_failure f h).1 =
        h.const_volatile_exit_inv_failure_handler ∧
      (set_const_volatile_exit_invariant_failure f h).2.const_volatile_exit_inv_failure_handler
        = f) ∧
    ((set_static_exit_invariant_failure f h).1 = h.static_exit_inv_failure_handler ∧
      (set_static_exit_invariant_failure f h).2.static_exit_inv_failure_handler = f) :=
  ⟨⟨rfl, rfl⟩, ⟨rfl, rfl⟩, ⟨rfl, rfl⟩, ⟨rfl, rfl⟩, ⟨rfl, rfl⟩, ⟨rfl, rfl⟩, ⟨rfl, rfl⟩,
    ⟨rfl, rfl⟩⟩

/-- C16. For every handler `f` and every state `h` of the registry,
`set_invariant_failure(f)` leaves the registry that the two calls
`set_entry_invariant_failure(f)` and `set_exit_invariant_failure(f)` leave, made in
either order; afterwards the three entry-invariant slots and the three exit-invariant
slots hold `f`, and the precondition and postcondition slots are as before. -/
theorem set_invariant_failure_sets_entry_and_exit (f : failure_handler) (h : handlers) :
    set_invariant_failure f h =
      set_exit_invariant_failure f (set_entry_invariant_failure f h) ∧
    set_invariant_failure f h =
      set_entry_invariant_failure f (set_exit_invariant_failure f h) ∧
    set_invariant_failure f h =
      ⟨h.pre_failure_handler, h.post_failure_handler, f, f, f, f, f, f⟩ :=
  ⟨rfl, rfl, rfl⟩

/-! ## Default failure handlers -/

/-- C18. Default fail-fast policy: in the initial registry every slot holds the default
handler of its own category and, for every value of `from` and every exception being
handled, that handler writes exactly one log line, which starts with the name of its
category, and then terminates the process; it neither returns nor throws. -/
theorem default_handlers_log_and_terminate (where_ : from_) (e : exception) :
    handlers.initial.pre_failure_handler =
      default_failure_handler failure_handler_key.pre_key ∧
    handlers.initial.post_failure_handler =
      default_failure_handler failure_handler_key.post_key ∧
    handlers.initial.const_entry_inv_failure_handler =
      default_failure_handler failure_handler_key.const_entry_inv_key ∧
    handlers.initial.const_volatile_entry_inv_failure_handler =
      default_failure_handler failure_handler_key.const_volatile_entry_inv_key ∧
    handlers.initial.static_entry_inv_failure_handler =
      default_failure_handler failure_handler_key.static_entry_inv_key ∧
    handlers.initial.const_exit_inv_failure_handler =
      default_failure_handler failure_handler_key.const_exit_inv_key ∧
    handlers.initial.const_volatile_exit_inv_failure_handler =
      default_failure_handler failure_handler_key.const_volatile_exit_inv_key ∧
    handlers.initial.static_exit_inv_failure_handler =
      default_failure_handler failure_handler_key.static_exit_inv_key ∧
    (∃ rest, default_failure_handler failure_handler_key.pre_key where_ e =
      (["precondition " ++ rest], handler_ending.terminated)) ∧
    (∃ rest, default_failure_handler failure_handler_key.post_key where_ e =
      (["postcondition " ++ rest], handler_ending.terminated)) ∧
    (∃ rest, default_failure_handler failure_handler_key.const_entry_inv_key where_ e =
      (["const entry invariant " ++ rest], handler_ending.terminated)) ∧
    (∃ rest,
      default_failure_handler failure_handler_key.const_volatile_entry_inv_key where_ e =
      (["const volatile entry invariant " ++ rest], handler_ending.terminated)) ∧
    (∃ rest, default_failure_handler failure_handler_key.static_entry_inv_key where_ e =
      (["static entry invariant " ++ rest], handler_ending.terminated)) ∧
    (∃ rest, default_failure_handler failure_handler_key.const_exit_inv_key where_ e =
      (["const exit invariant " ++ rest], handler_ending.terminated)) ∧
    (∃ rest,
      default_failure_handler failure_handler_key.const_volatile_exit_inv_key where_ e =
      (["const volatile exit invariant " ++ rest], handler_ending.terminated)) ∧
    (∃ rest, default_failure_handler failure_handler_key.static_exit_inv_key where_ e =
      (["static exit invariant " ++ rest], handler_ending.terminated)) := by
  refine ⟨rfl, rfl, rfl, rfl, rfl, rfl, rfl, rfl, ?_, ?_, ?_, ?_, ?_, ?_, ?_, ?_⟩ <;>
  · cases e with
    | assertion_failure error => exact ⟨error.what, rfl⟩
    | std_exception what =>
      refine ⟨"checking threw standard exception with " ++ ("what(): " ++ what), ?_⟩
      show ([_ ++ "checking threw standard exception with " ++ "what(): " ++ what], _) = _
      rw [String.append_assoc, String.append_assoc]
    | other name => exact ⟨"checking threw unknown exception", rfl⟩

/-- C19, refuted as stated: with the default handlers installed, a failure of the
const entry invariant reported from a destructor is logged and the process is
terminated; the handler does not return. -/
theorem default_handler_terminates_from_destructor :
    handlers.initial.const_entry_inv_failure_handler from_.from_destructor
        (exception.assertion_failure
          (assertion_failure.construct "" 0 "size() <= capacity()")) =
      (["const entry invariant assertion \"size() <= capacity()\" failed"],
        handler_ending.terminated) := by
  decide

/-- C19, amended.  With the default handlers installed, a contract failure reported
from a destructor's checks (`from_destructor`) is logged and the process is terminated,
exactly as for every other operation kind: the default handler writes the same single
line whatever `from` is, does not return normally and does not throw. -/
theorem default_handler_ignores_from (Key : failure_handler_key) (where_ : from_)
    (e : exception) :
    default_failure_handler Key from_.from_destructor e =
      default_failure_handler Key where_ e ∧
    (default_failure_handler Key from_.from_destructor e).2 = handler_ending.terminated ∧
    (default_failure_handler Key from_.from_destructor e).1.length = 1 :=
  ⟨rfl, rfl, rfl⟩

/-! ## The text of an assertion failure -/

/-- C20. The code at the failing input: for the condition text `x > 0`, the file name
`abc.cpp` and the line `123`, all specified, `what()` is
`assertion "x > 0" failed: "abc.cpp", line 123`: the word `file` that the documented
format has before the file name is missing. -/
theorem what_lacks_the_word_file :
    (assertion_failure.construct "abc.cpp" 123 "x > 0").what =
      "assertion \"x > 0\" failed: \"abc.cpp\", line 123" ∧
    (assertion_failure.construct "abc.cpp" 123 "x > 0").what ≠
      "assertion \"x > 0\" failed: file \"abc.cpp\", line 123" := by
  decide

/-! ## The handler of the example throw_on_failure -/

/-- C22. The failure handler that the example installs never lets an exception escape a
destructor: called with `from_destructor` it writes its log line and returns normally,
and called with any other value of `from` it re-throws the exception being handled,
unchanged.  This holds for the enumeration `from` of core/exception.hpp, which the
example is written for, and for the one of exception.hpp. -/
theorem failure_handler_lambda_spares_destructors (e : exception) :
    (throw_on_failure.from_failure_handler_lambda core.from_.from_destructor e =
        (["ignored destructor contract failure"], handler_ending.returned) ∧
      throw_on_failure.from_failure_handler_lambda core.from_.from_constructor e =
        ([], handler_ending.threw e) ∧
      throw_on_failure.from_failure_handler_lambda core.from_.from_function e =
        ([], handler_ending.threw e)) ∧
    (throw_on_failure.failure_handler_lambda from_.from_destructor e =
        (["ignored destructor contract failure"], handler_ending.returned) ∧
      throw_on_failure.failure_handler_lambda from_.from_constructor e =
        ([], handler_ending.threw e) ∧
      throw_on_failure.failure_handler_lambda from_.from_public_member e =
        ([], handler_ending.threw e) ∧
      throw_on_failure.failure_handler_lambda from_.from_protected_member e =
        ([], handler_ending.threw e) ∧
      throw_on_failure.failure_handler_lambda from_.from_private_member e =
        ([], handler_ending.threw e) ∧
      throw_on_failure.failure_handler_lambda from_.from_free_function e =
        ([], handler_ending.threw e)) :=
  ⟨⟨rfl, rfl, rfl⟩, ⟨rfl, rfl, rfl, rfl, rfl, rfl⟩⟩

/-! ## The example access -/

/-- C25. Old-value round trip in `vector::push_back`: for every state of the vector,
every value pushed and whatever the implementation does with the capacity, `old_size`
is `size()` as it was before the body, and the postcondition `size() == old_size + 1`,
evaluated in `unsigned` arithmetic on the state after the body, holds; for an empty
vector, `push_back(123)` leaves `size() == 1`. -/
theorem push_back_old_size_round_trip {T : Type} (self : access.vector T) (value : T)
    (grown capacity_0 max_size_0 : Nat) :
    access.vector.push_back_old_size self = self.size ∧
    access.vector.push_back_postcondition
      (access.vector.push_back_body self value grown)
      (access.vector.push_back_old_size self) ∧
    (access.vector.push_back_body
      (⟨[], capacity_0, max_size_0⟩ : access.vector Int) 123 grown).size = 1 := by
  refine ⟨rfl, ?_, rfl⟩
  simp only [access.vector.push_back_postcondition, access.vector.push_back_body,
    access.vector.push_back_old_size, access.vector.size, to_unsigned,
    List.length_append, List.length_singleton]
  omega

/-- C29. In the access example the override's declared precondition is never stricter
than its base's: in every state of the vector that satisfies the invariant of `vector`,
`size() <= capacity()`, the precondition of `pushable::push_back`,
`capacity() < max_size()`, implies the one of `vector::push_back`,
`size() < max_size()`. -/
theorem vector_precondition_not_stricter {T : Type} (self : access.vector T)
    (hinv : self.invariant) (hbase : self.pushable_push_back_precondition) :
    self.push_back_precondition := by
  unfold access.vector.invariant at hinv
  unfold access.vector.pushable_push_back_precondition at hbase
  unfold access.vector.push_back_precondition
  exact Nat.lt_of_le_of_lt hinv hbase

/-- C29, at a concrete input: a vector with 2 elements, capacity 4 and `max_size()`
reduced from `2 ^ 61 - 1`. -/
theorem vector_precondition_not_stricter_witness :
    (⟨[10, 20], 4, 2 ^ 61 - 1⟩ : access.vector Int).push_back_precondition :=
  vector_precondition_not_stricter ⟨[10, 20], 4, 2 ^ 61 - 1⟩
    (by unfold access.vector.invariant; decide)
    (by unfold access.vector.pushable_push_back_precondition; decide)

/-! ## Frame of the handler setters -/

/-- C26. Each failure category has its own slot: for every handler `f` and every state
`h` of the registry, `set_precondition_failure` changes the precondition slot only,
`set_postcondition_failure` the postcondition slot only, `set_entry_invariant_failure`
the three entry-invariant slots only and `set_exit_invariant_failure` the three
exit-invariant slots only; every other slot keeps the handler it had. -/
theorem setters_change_only_their_slots (f : failure_handler) (h : handlers) :
    (set_precondition_failure f h).2 =
      ⟨f, h.post_failure_handler,
        h.const_entry_inv_failure_handler, h.const_volatile_entry_inv_failure_handler,
        h.static_entry_inv_failure_handler,
        h.const_exit_inv_failure_handler, h.const_volatile_exit_inv_failure_handler,
        h.static_exit_inv_failure_handler⟩ ∧
    (set_postcondition_failure f h).2 =
      ⟨h.pre_failure_handler, f,
        h.const_entry_inv_failure_handler, h.const_volatile_entry_inv_failure_handler,
        h.static_entry_inv_failure_handler,
        h.const_exit_inv_failure_handler, h.const_volatile_exit_inv_failure_handler,
        h.static_exit_inv_failure_handler⟩ ∧
    set_entry_invariant_failure f h =
      ⟨h.pre_failure_handler, h.post_failure_handler, f, f, f,
        h.const_exit_inv_failure_handler, h.const_volatile_exit_inv_failure_handler,
        h.static_exit_inv_failure_handler⟩ ∧
    set_exit_invariant_failure f h =
      ⟨h.pre_failure_handler, h.post_failure_handler,
        h.const_entry_inv_failure_handler, h.const_volatile_entry_inv_failure_handler,
        h.static_entry_inv_failure_handler, f, f, f⟩ :=
  ⟨rfl, rfl, rfl, rfl⟩

/-! ## Exceptions leaving a base's check -/

open aux.check aux.check.subcontracted_pre_post_inv

/-- C27. For a base that declares the contract function `f`, `check_base` lets an
exception escape only when the mode is `check_pre_only` and the exception is
`no_error`, which then escapes.  In every other case, whatever `f` throws in another
mode and whatever it throws but `no_error` in `check_pre_only` mode, `check_base`
returns with the state `f` left and the iteration goes on with the next base. -/
theorem check_base_lets_only_no_error_escape {α σ ε : Type}
    (outer_ : subcontracted_pre_post_inv α σ ε) (virt_ : virtual_body)
    (f : α → virtual_body → action σ ε) (bs : List (base α σ ε)) (s : σ) :
    (∀ t, (check_base outer_ virt_ ⟨some f⟩ s).1 = outcome.threw t →
      virt_ = virtual_body.check_pre_only ∧ t = thrown.no_error ∧
      (f outer_.arg0_ virt_ s).1 = outcome.threw thrown.no_error) ∧
    (virt_ = virtual_body.check_pre_only →
      (f outer_.arg0_ virt_ s).1 = outcome.threw thrown.no_error →
      check_base outer_ virt_ ⟨some f⟩ s =
        (outcome.threw thrown.no_error, (f outer_.arg0_ virt_ s).2)) ∧
    (¬ (virt_ = virtual_body.check_pre_only ∧
        (f outer_.arg0_ virt_ s).1 = outcome.threw thrown.no_error) →
      check_base outer_ virt_ ⟨some f⟩ s =
        (outcome.returned, (f outer_.arg0_ virt_ s).2) ∧
      for_each (⟨some f⟩ :: bs) (check_base outer_ virt_) s =
        for_each bs (check_base outer_ virt_) (f outer_.arg0_ virt_ s).2) := by
  have hother : ¬ (virt_ = virtual_body.check_pre_only ∧
      (f outer_.arg0_ virt_ s).1 = outcome.threw thrown.no_error) →
      check_base outer_ virt_ ⟨some f⟩ s =
        (outcome.returned, (f outer_.arg0_ virt_ s).2) := by
    intro hn
    by_cases hv : virt_ = virtual_body.check_pre_only
    · subst hv
      exact check_base_pre_mode_other outer_ f ⟨some f⟩ rfl s (fun hr => hn ⟨rfl, hr⟩)
    · exact check_base_other_mode outer_ virt_ hv f ⟨some f⟩ rfl s
  have hescape : virt_ = virtual_body.check_pre_only →
      (f outer_.arg0_ virt_ s).1 = outcome.threw thrown.no_error →
      check_base outer_ virt_ ⟨some f⟩ s =
        (outcome.threw thrown.no_error, (f outer_.arg0_ virt_ s).2) := by
    intro hv hr
    subst hv
    exact check_base_pre_mode_no_error outer_ f ⟨some f⟩ rfl s hr
  refine ⟨?_, hescape, fun hn => ⟨hother hn, ?_⟩⟩
  · intro t ht
    by_cases hc : virt_ = virtual_body.check_pre_only ∧
        (f outer_.arg0_ virt_ s).1 = outcome.threw thrown.no_error
    · rw [hescape hc.1 hc.2] at ht
      simp only [outcome.threw.injEq] at ht
      exact ⟨hc.1, ht.symm, hc.2⟩
    · rw [hother hc] at ht
      cases ht
  · exact for_each_cons_returned _ _ bs s _ (hother hn)

/-- C27, at a concrete input: in `check_post_only` mode the contract function of the
first base throws the failure `B::post`; the iteration goes on with the second base. -/
theorem check_base_lets_only_no_error_escape_witness :
    for_each
        [⟨some (fun _ _ => logged "B" (outcome.threw (thrown.failure "B::post")))⟩,
          ⟨some (fun _ _ => logged "A" outcome.returned)⟩]
        (check_base
          (⟨[], (), fun _ => aux.skip, aux.skip, aux.skip, aux.skip⟩ :
            subcontracted_pre_post_inv Unit (List String) String)
          virtual_body.check_post_only) [] =
      (outcome.returned, ["B", "A"]) :=
  ((check_base_lets_only_no_error_escape
      (⟨[], (), fun _ => aux.skip, aux.skip, aux.skip, aux.skip⟩ :
        subcontracted_pre_post_inv Unit (List String) String)
      virtual_body.check_post_only
      (fun _ _ => logged "B" (outcome.threw (thrown.failure "B::post")))
      [⟨some (fun _ _ => logged "A" outcome.returned)⟩] []).2.2
    (by decide)).2.trans (by decide)

/-! ## The parts of the text of an assertion failure -/

open assertion_failure

/-- C21. The text `what()` omits every part that was not specified at construction.
The condition text is absent when `code` is empty: the text is then `assertion failed`
followed by the same location as with a condition text.  The file part is absent when
`file` is empty: the text then ends with `failed`.  The line part is absent when `line`
is `0`: the text then ends with the file name.  In particular a default-constructed
`assertion_failure` has the text `assertion failed` and one constructed from a condition
text `c` only has the text `assertion "c" failed`. -/
theorem what_omits_unspecified_parts (file : String) (line : Nat) (code : String) :
    (code ≠ "" → ∃ location,
      (construct file line code).what =
        "assertion \"" ++ code ++ "\" failed" ++ location ∧
      (construct file line "").what = "assertion failed" ++ location) ∧
    (construct "" line "").what = "assertion failed" ∧
    (code ≠ "" → (construct "" line code).what = "assertion \"" ++ code ++ "\" failed") ∧
    (file ≠ "" →
      (construct file 0 code).what = (construct "" 0 code).what ++ ": \"" ++ file ++ "\"") ∧
    (construct "" 0 "").what = "assertion failed" ∧
    (code ≠ "" → (construct_code code).what = "assertion \"" ++ code ++ "\" failed") := by
  have e1 : "\" failed" ++ ": \"" = "\" failed: \"" := by decide
  have e2 : "assertion failed" ++ ": \"" = "assertion failed: \"" := by decide
  refine ⟨?_, ?_, ?_, ?_, ?_, ?_⟩
  · intro hc
    by_cases hf : file = ""
    · refine ⟨"", ?_, ?_⟩ <;> simp [construct, what, init, hf, hc, String.append_assoc]
    · by_cases hl : line = 0
      · refine ⟨": \"" ++ file ++ "\"", ?_, ?_⟩ <;>
          simp [construct, what, init, hf, hl, hc, String.append_assoc]
        · rw [← String.append_assoc "\" failed" ": \"", e1]
        · rw [← String.append_assoc "assertion failed" ": \"", e2]
      · refine ⟨": \"" ++ file ++ "\"" ++ ", line " ++ toString line, ?_, ?_⟩ <;>
          simp [construct, what, init, hf, hl, hc, String.append_assoc]
        · rw [← String.append_assoc "\" failed" ": \"", e1]
        · rw [← String.append_assoc "assertion failed" ": \"", e2]
  · simp [construct, what, init]
  · intro hc
    simp [construct, what, init, hc, String.append_assoc]
  · intro hf
    simp [construct, what, init, hf, String.append_assoc]
  · simp [construct, what, init]
  · intro hc
    simp [construct_code, what, init, hc, String.append_assoc]

/-- C21, at a concrete input: the text of `assertion_failure("x > 0")`. -/
theorem what_omits_unspecified_parts_witness :
    (construct_code "x > 0").what = "assertion \"x > 0\" failed" :=
  (what_omits_unspecified_parts "" 0 "x > 0").2.2.2.2.2 (by decide)

/-- C28. In `what()` the line number appears if and only if the file name is not empty
and the line is not zero: in that case the text is the one for line `0` followed by
`, line` and the number; otherwise it is the text for line `0`; and with an empty file
name the text has no file part and no line part, whatever the line number: it is the
text of an `assertion_failure` constructed from the condition text only. -/
theorem what_line_only_with_file (file : String) (line : Nat) (code : String) :
    (file ≠ "" → line ≠ 0 →
      (construct file line code).what =
        (construct file 0 code).what ++ ", line " ++ toString line) ∧
    (file = "" ∨ line = 0 →
      (construct file line code).what = (construct file 0 code).what) ∧
    (construct "" line code).what = (construct_code code).what := by
  refine ⟨?_, ?_, ?_⟩
  · intro hf hl
    simp [construct, what, init, hf, hl, String.append_assoc]
  · intro h
    rcases h with hf | hl
    · simp [construct, what, init, hf]
    · simp [construct, what, init, hl]
  · simp [construct, construct_code, what, init]

/-- C28, at a concrete input: with an empty file name the line `123` does not appear. -/
theorem what_line_only_with_file_witness :
    (construct "" 123 "x > 0").what = "assertion \"x > 0\" failed" :=
  ((what_line_only_with_file "" 123 "x > 0").2.1 (Or.inl rfl)).trans (by decide)

/-! ## The constructor of `cstring` -/

open throw_on_failure

/-- The loop of the constructor body records the indices it visits, in order, and
leaves the length of the array unchanged. -/
theorem foldl_write (g : Nat → Char) (l : List Nat) (st : List Char × List Nat) :
    (l.foldl (fun st i => cstring.write i (g i) st) st).2 = st.2 ++ l ∧
    (l.foldl (fun st i => cstring.write i (g i) st) st).1.length = st.1.length := by
  induction l generalizing st with
  | nil => simp
  | cons i l ih =>
    simp only [List.foldl_cons]
    obtain ⟨h1, h2⟩ := ih (cstring.write i (g i) st)
    rw [h1, h2]
    simp [cstring.write]

/-- The constructor precondition passes exactly for a non-null string of at most
`MaxSize` characters. -/
theorem constructor_precondition_value_iff (MaxSize : Nat) (chars : c_string) :
    cstring.constructor_precondition MaxSize chars = evaluation.value () ↔
      ∃ cs, chars = some cs ∧ cs.length ≤ MaxSize := by
  cases chars with
  | none => simp [cstring.constructor_precondition]
  | some cs =>
    by_cases h : cs.length > MaxSize
    · simp [cstring.constructor_precondition, strlen, h]
    · simp only [cstring.constructor_precondition, strlen, h, Option.isNone_some,
        Bool.false_eq_true, if_false]
      simp only [true_iff]
      exact ⟨cs, rfl, Nat.le_of_not_gt h⟩

/-- The constructor body on a string shorter than `2 ^ 32`: the object it leaves and
the indices it writes. -/
theorem constructor_body_spec (cs chars_0 : List Char) (h32 : cs.length < 2 ^ 32) :
    ∃ arr, cstring.constructor_body (some cs) chars_0 =
        evaluation.value (⟨arr, cs.length⟩, List.range cs.length ++ [cs.length]) ∧
      arr.length = chars_0.length ∧
      (cs.length < chars_0.length → arr[cs.length]? = some (Char.ofNat 0)) := by
  have hu : to_unsigned cs.length = cs.length := Nat.mod_eq_of_lt h32
  obtain ⟨h1, h2⟩ := foldl_write (fun i => cs.getD i (Char.ofNat 0))
    (List.range cs.length) (chars_0, [])
  refine ⟨((List.range cs.length).foldl
      (fun st i => cstring.write i (cs.getD i (Char.ofNat 0)) st) (chars_0, [])).1.set
      cs.length (Char.ofNat 0), ?_, ?_, ?_⟩
  · simp only [cstring.constructor_body, hu]
    simp only [cstring.write] at h1 ⊢
    rw [h1]
    simp
  · simp only [List.length_set]
    exact h2
  · intro hlt
    exact List.getElem?_set_self (by rw [h2]; exact hlt)

/-- C30. Under the constructor precondition (`chars` is not null and
`strlen(chars) <= MaxSize`), the body of the constructor of `cstring<MaxSize>` writes
only to indices `0..MaxSize` of `chars_`, which has `MaxSize + 1` elements; afterwards
`size_ == strlen(chars)` and `chars_[size_]` is the NUL character, so the postcondition
of the constructor and the class invariant hold. -/
theorem constructor_body_establishes_contract (MaxSize : Nat) (chars : c_string)
    (chars_0 : List Char) (hMax : MaxSize + 1 < 2 ^ 32)
    (h0 : chars_0.length = MaxSize + 1)
    (hpre : cstring.constructor_precondition MaxSize chars = evaluation.value ()) :
    ∃ obj writes,
      cstring.constructor_body chars chars_0 = evaluation.value (obj, writes) ∧
      (∀ i ∈ writes, i ≤ MaxSize) ∧
      obj.chars_.length = MaxSize + 1 ∧
      strlen chars = evaluation.value obj.size_ ∧
      obj.chars_[obj.size_]? = some (Char.ofNat 0) ∧
      cstring.constructor_postcondition obj chars = evaluation.value () ∧
      cstring.invariant MaxSize obj = evaluation.value () := by
  obtain ⟨cs, hcs, hlen⟩ := (constructor_precondition_value_iff MaxSize chars).mp hpre
  subst hcs
  obtain ⟨arr, hbody, harr, hnul⟩ := constructor_body_spec cs chars_0 (by omega)
  have hnul1 : arr[cs.length]? = some (Char.ofNat 0) := hnul (by omega)
  refine ⟨⟨arr, cs.length⟩, List.range cs.length ++ [cs.length], hbody, ?_, ?_, rfl,
    hnul1, ?_, ?_⟩
  · intro i hi
    simp only [List.mem_append, List.mem_range, List.mem_singleton] at hi
    omega
  · simp only [harr, h0]
  · simp [cstring.constructor_postcondition, strlen, cstring.size]
  · simp only [cstring.invariant, cstring.size, hnul1, if_true]
    simp [Nat.not_lt.mpr hlen]

/-- C30, at a concrete input: `cstring<3>` constructed from `abc`. -/
theorem constructor_body_establishes_contract_witness :
    ∃ obj writes,
      cstring.constructor_body (some ['a', 'b', 'c']) ['?', '?', '?', '?'] =
        evaluation.value (obj, writes) ∧
      (∀ i ∈ writes, i ≤ 3) ∧
      obj.chars_.length = 3 + 1 ∧
      strlen (some ['a', 'b', 'c']) = evaluation.value obj.size_ ∧
      obj.chars_[obj.size_]? = some (Char.ofNat 0) ∧
      cstring.constructor_postcondition obj (some ['a', 'b', 'c']) = evaluation.value () ∧
      cstring.invariant 3 obj = evaluation.value () :=
  constructor_body_establishes_contract 3 (some ['a', 'b', 'c']) ['?', '?', '?', '?']
    (by decide) (by decide) (by decide)

/-- When the constructor precondition passes, the construction completes under every
registry: the exit invariant and the postcondition hold after the body, so no handler
is called. -/
theorem construct_of_short_string (MaxSize : Nat) (h : handlers) (cs chars_0 : List Char)
    (hMax : MaxSize + 1 < 2 ^ 32) (h0 : chars_0.length = MaxSize + 1)
    (hlen : cs.length ≤ MaxSize) :
    ∃ obj, cstring.construct MaxSize h (some cs) chars_0 = construction.constructed obj := by
  obtain ⟨arr, hbody, harr, hnul⟩ := constructor_body_spec cs chars_0 (by omega)
  have hnul1 : arr[cs.length]? = some (Char.ofNat 0) := hnul (by omega)
  have hpre : cstring.constructor_precondition MaxSize (some cs) = evaluation.value () :=
    (constructor_precondition_value_iff MaxSize (some cs)).mpr ⟨cs, rfl, hlen⟩
  have hinv : cstring.invariant MaxSize ⟨arr, cs.length⟩ = evaluation.value () := by
    simp only [cstring.invariant, cstring.size, hnul1, if_true]
    simp [Nat.not_lt.mpr hlen]
  have hpost : cstring.constructor_postcondition ⟨arr, cs.length⟩ (some cs) =
      evaluation.value () := by
    simp [cstring.constructor_postcondition, strlen, cstring.size]
  refine ⟨⟨arr, cs.length⟩, ?_⟩
  simp only [cstring.construct, hpre, hbody, hinv, hpost, checked]

/-- C23. With the re-throwing handlers of the example installed, an exception thrown
while the constructor precondition of `cstring<MaxSize>` is checked reaches the caller
with its own type: the construction raises an `assertion_failure` if and only if
`chars` is null, raises `too_large_error` if and only if `chars` is not null and longer
than `MaxSize`, and otherwise raises nothing and constructs the object.  For a null
`chars` the precondition functor ends with the assertion failure, before
`std::strlen(chars)`, whose behaviour would be undefined, is evaluated. -/
theorem cstring_construct_raises (MaxSize : Nat) (chars : c_string) (chars_0 : List Char)
    (hMax : MaxSize + 1 < 2 ^ 32) (h0 : chars_0.length = MaxSize + 1) :
    ((∃ a, cstring.construct MaxSize rethrowing_handlers chars chars_0 =
        construction.raised (exception.assertion_failure a)) ↔ chars = none) ∧
    (cstring.construct MaxSize rethrowing_handlers chars chars_0 =
        construction.raised too_large_error ↔
      ∃ cs, chars = some cs ∧ MaxSize < cs.length) ∧
    ((∃ obj, cstring.construct MaxSize rethrowing_handlers chars chars_0 =
        construction.constructed obj) ↔
      ∃ cs, chars = some cs ∧ cs.length ≤ MaxSize) ∧
    cstring.constructor_precondition MaxSize none =
      evaluation.threw (assertion_failed 27 "chars") ∧
    strlen none = (evaluation.undefined : evaluation Nat) ∧
    cstring.construct MaxSize rethrowing_handlers chars chars_0 ≠
      construction.undefined := by
  have hnone : cstring.construct MaxSize rethrowing_handlers none chars_0 =
      construction.raised (assertion_failed 27 "chars") := rfl
  have hlong : ∀ cs : List Char, MaxSize < cs.length →
      cstring.construct MaxSize rethrowing_handlers (some cs) chars_0 =
        construction.raised too_large_error := by
    intro cs hcs
    have hpre : cstring.constructor_precondition MaxSize (some cs) =
        evaluation.threw too_large_error := by
      simp [cstring.constructor_precondition, strlen, hcs]
    simp only [cstring.construct, hpre, checked]
    rfl
  cases chars with
  | none =>
    rw [hnone]
    refine ⟨⟨fun _ => rfl, fun _ => ⟨_, rfl⟩⟩, ?_, ?_, rfl, rfl, ?_⟩
    · simp [assertion_failed, too_large_error]
    · simp
    · simp
  | some cs =>
    by_cases hcs : MaxSize < cs.length
    · rw [hlong cs hcs]
      refine ⟨?_, ?_, ?_, rfl, rfl, ?_⟩
      · simp [too_large_error]
      · simp [hcs]
      · simp only [false_iff, reduceCtorEq, exists_false, not_exists, not_and]
        intro cs1 h1
        cases h1
        omega
      · simp
    · have hle : cs.length ≤ MaxSize := Nat.le_of_not_gt hcs
      obtain ⟨obj, hobj⟩ := construct_of_short_string MaxSize rethrowing_handlers cs
        chars_0 hMax h0 hle
      rw [hobj]
      refine ⟨?_, ?_, ?_, rfl, rfl, ?_⟩
      · simp
      · simp only [false_iff, reduceCtorEq, not_exists, not_and]
        intro cs1 h1
        cases h1
        exact hcs
      · simp only [true_iff, construction.constructed.injEq, exists_eq']
        exact ⟨cs, rfl, hle⟩
      · simp

/-- C23, at concrete inputs, the three constructions of `main`: `cstring<3>` from
`abc`, from a null pointer and from `abcd`. -/
theorem cstring_construct_raises_witness :
    (∃ obj, cstring.construct 3 rethrowing_handlers (some ['a', 'b', 'c'])
        ['?', '?', '?', '?'] = construction.constructed obj) ∧
    (∃ a, cstring.construct 3 rethrowing_handlers none ['?', '?', '?', '?'] =
        construction.raised (exception.assertion_failure a)) ∧
    cstring.construct 3 rethrowing_handlers (some ['a', 'b', 'c', 'd'])
        ['?', '?', '?', '?'] = construction.raised too_large_error :=
  ⟨(cstring_construct_raises 3 (some ['a', 'b', 'c']) ['?', '?', '?', '?']
      (by decide) (by decide)).2.2.1.mpr ⟨['a', 'b', 'c'], rfl, by decide⟩,
    (cstring_construct_raises 3 none ['?', '?', '?', '?']
      (by decide) (by decide)).1.mpr rfl,
    (cstring_construct_raises 3 (some ['a', 'b', 'c', 'd']) ['?', '?', '?', '?']
      (by decide) (by decide)).2.1.mpr ⟨['a', 'b', 'c', 'd'], rfl, by decide⟩⟩

end boost.contract
